import Mathlib

/-!
# imapidol: configuration validation, configuration resolution and the IDLE event loop

A shallow embedding of `src/main.go`.

* The INI file handed over by the `ini` package is a list of sections in file
  order; a section is a name and a list of keys in file order; a key is a
  name, its raw value and the string `String()` returns for it.
  `Section.Key(name)` looks the key up in the section and then in its parent
  sections (`a.b` has the parent `a`); `File.Section("")` is the section
  named `DEFAULT`.
* `strconv.Atoi` is the one of a 64-bit `int`; `strconv.Quote`, which only
  shapes the text of its error, is a parameter.  `cmd.Run()` is a function of
  the command given by the host.
* `fmt.Errorf` values are constructors that carry the arguments of the format
  string; `Error` renders the message.
* Printing that depends on `wantDebug` and `wantVerbose` has no effect on the
  values computed and is left out.
-/

namespace Imapidol

set_option maxRecDepth 20000

deriving instance DecidableEq for Except

/-! ## The INI data model -/

/-- One `ini.Key`: its name, its raw value (`Value()`) and the string
`String()` returns for it, which is the raw value with the `%(name)s`
references of the `ini` package replaced. -/
structure Key where
  Name : String
  Value : String
  Str : String
  deriving DecidableEq, Repr

/-- A key whose value holds no `%(name)s` reference: `String()` is `Value()`. -/
def Key.plain (name value : String) : Key :=
  { Name := name, Value := value, Str := value }

/-- One `ini.Section`: its name and its keys in file order (`Keys()`). -/
structure Section where
  Name : String
  Keys : List Key
  deriving DecidableEq, Repr

/-- An `ini.File`: its sections in file order (`Sections()`). -/
structure File where
  Sections : List Section
  deriving DecidableEq, Repr

/-- Result of `cfg.GetSection(name)`: the first section of that name, the
empty name standing for `DEFAULT`; `none` is the error. -/
def File.GetSection (cfg : File) (name : String) : Option Section :=
  cfg.Sections.find? (fun s => s.Name == (if name = "" then "DEFAULT" else name))

/-- Section returned by `cfg.Section("")`: the section named `DEFAULT`, an
empty one when the file has none. -/
def File.Section (cfg : File) (name : String) : Section :=
  match cfg.GetSection name with
  | some s => s
  | none => { Name := if name = "" then "DEFAULT" else name, Keys := [] }

/-- The section's own key of that name (`s.keys[name]`). -/
def Section.ownKey (s : Section) (name : String) : Option Key :=
  s.Keys.find? (fun k => k.Name == name)

/-- The string of the section's own key of that name, the empty string when
the section has no such key. -/
def Section.own (s : Section) (name : String) : String :=
  match s.ownKey name with
  | some k => k.Str
  | none => ""

/-- The prefixes of a section name that end before a `.`, the longest first:
the names `GetKey` tries as parent sections (`sname[:LastIndex(sname, ".")]`,
repeated). -/
def dotPrefixes : List Char → List Char → List String
  | _, [] => []
  | acc, c :: cs =>
    if c = '.' then dotPrefixes (acc ++ [c]) cs ++ [String.mk acc]
    else dotPrefixes (acc ++ [c]) cs

/-- The names of the parent sections of a section name, the nearest first. -/
def parentNames (name : String) : List String :=
  dotPrefixes [] name.data

/-- The loop of `GetKey` over the parent names: a name for which the file has
no section is skipped; a parent section that exists is asked for the key,
and goes on with its own parents, which are the names that remain. -/
def File.parentKey (cfg : File) (name : String) : List String → Option Key
  | [] => none
  | p :: ps =>
    match cfg.GetSection p with
    | none => cfg.parentKey name ps
    | some sec =>
      match sec.ownKey name with
      | some k => some k
      | none => cfg.parentKey name ps

/-- Result of `s.GetKey(name)` for a section of the file `cfg`: the section's
own key, else the key of the nearest parent section that has one; `none` is
the error. -/
def Section.GetKey (s : Section) (cfg : File) (name : String) : Option Key :=
  match s.ownKey name with
  | some k => some k
  | none => cfg.parentKey name (parentNames s.Name)

/-- Value of `section.Key(key).String()` for a section of the file `cfg`:
the string of the key `GetKey` finds, the empty string (that of the new key
`Key` creates) when it finds none. -/
def Section.Key (s : Section) (cfg : File) (key : String) : String :=
  match s.GetKey cfg key with
  | some k => k.Str
  | none => ""

/-- Names of the keys of a section, in file order. -/
def Section.keyNames (s : Section) : List String :=
  s.Keys.map (fun k => k.Name)

/-! ## Key tables -/

/-- Keys that (almost) any section can contain. -/
def validINIKeys : List String :=
  ["command", "email", "folder", "password_command", "password_insecure",
   "server", "idle_timeout_minutes"]

/-- Keys required in all sections but DEFAULT. -/
def requiredINIKeys : List String := ["email"]

/-- Keys required in all sections but DEFAULT, either/or. -/
def requiredINIKeysEitherOr : List String :=
  ["password_command", "password_insecure"]

/-- Keys that are invalid in the DEFAULT section. -/
def invalidINIKeysDefault : List String :=
  ["email", "password_insecure", "password_command"]

/-! ## validateConfigWithErr -/

/-- The five `fmt.Errorf` results of `validateConfigWithErr`. -/
inductive ValidateError where
  | invalidKey (sec key value : String)
  | missingRequired (sec key : String)
  | moreThanOne (sec : String)
  | noneSet (sec : String)
  | unsupportedDefault (sec key : String)
  deriving DecidableEq, Repr

/-- Rendering of a string slice by the `%v` verb. -/
def fmtStrings (xs : List String) : String :=
  "[" ++ " ".intercalate xs ++ "]"

/-- The message of a validation error. -/
def ValidateError.Error : ValidateError → String
  | .invalidKey s k v =>
      "section " ++ s ++ " has invalid key " ++ k ++ " (=" ++ v ++
        "). Valid INI section keys: " ++ fmtStrings validINIKeys
  | .missingRequired s k =>
      "section " ++ s ++ " does not contain required key " ++ k
  | .moreThanOne s =>
      "section " ++ s ++ " contains more than one key in " ++
        fmtStrings requiredINIKeysEitherOr ++ ". Only one is supported (either/or)"
  | .noneSet s =>
      "section " ++ s ++ " requires a setting for " ++
        fmtStrings requiredINIKeysEitherOr ++ ". None are currently set"
  | .unsupportedDefault s k =>
      "section " ++ s ++ " does not support key " ++ k

/-- Whether the error is one of the two either/or rejections. -/
def ValidateError.isEitherOr : ValidateError → Bool
  | .moreThanOne _ => true
  | .noneSet _ => true
  | _ => false

/-- The message of the error contains the name of the key. -/
def ValidateError.namesKey (e : ValidateError) (key : String) : Prop :=
  key.data <:+: e.Error.data

instance (e : ValidateError) (key : String) : Decidable (e.namesKey key) := by
  unfold ValidateError.namesKey
  infer_instance

/-- The `found` flag of the loops `for _, kk := range names { if kk == name ... }`. -/
def foundIn (names : List String) (name : String) : Bool :=
  names.any (fun kk => kk == name)

/-- The counter `foundEitherOr`: over all keys of the section, the number of
entries of `requiredINIKeysEitherOr` equal to the key's name. -/
def foundEitherOr (s : Section) : Nat :=
  s.Keys.foldl
    (fun n k => requiredINIKeysEitherOr.foldl
      (fun m rk => if rk = k.Name then m + 1 else m) n) 0

/-- Body of the loop over sections in `validateConfigWithErr`: the error the
section is rejected with, `none` when the loop goes on to the next section. -/
def validateSection (s : Section) : Option ValidateError :=
  -- Check that all keys are valid
  match s.Keys.find? (fun k => !foundIn validINIKeys k.Name) with
  | some k => some (.invalidKey s.Name k.Name k.Value)
  | none =>
  -- Check that required keys are set
  match requiredINIKeys.find?
      (fun rk => !foundIn s.keyNames rk && decide (s.Name ≠ "DEFAULT")) with
  | some rk => some (.missingRequired s.Name rk)
  | none =>
  -- Check that required either/or keys are set
  if foundEitherOr s > 1 ∧ s.Name ≠ "DEFAULT" then some (.moreThanOne s.Name)
  else if foundEitherOr s = 0 ∧ s.Name ≠ "DEFAULT" then some (.noneSet s.Name)
  -- The DEFAULT section doesn't need anything, but doesn't support some keys
  else if s.Name = "DEFAULT" then
    match invalidINIKeysDefault.find? (fun ik => foundIn s.keyNames ik) with
    | some ik => some (.unsupportedDefault s.Name ik)
    | none => none
  else none

/-- The loop over sections: the first rejection, in file order. -/
def validateSections : List Section → Option ValidateError
  | [] => none
  | s :: rest =>
    match validateSection s with
    | some e => some e
    | none => validateSections rest

/-- Result of `validateConfigWithErr`: `none` is Go's `nil` error. -/
def validateConfigWithErr (cfg : File) : Option ValidateError :=
  validateSections cfg.Sections

/-! ## Overall defaults and section values -/

/-- Which IMAP folder to watch by default. -/
def defaultFolder : String := "INBOX"

/-- Which IMAP server to connect to by default. -/
def defaultServer : String := "imap.gmail.com:993"

/-- Minutes to max idle for (as a string). -/
def defaultIdleTimeoutMinutes : String := "15"

/-- Which command to execute by default. -/
def defaultCommand : String := ""

/-- The command-line flags `-folder`, `-server` and `-command`; the empty
string when the flag has not been given. -/
structure Flags where
  flagFolder : String
  flagServer : String
  flagCommand : String
  deriving DecidableEq, Repr

/-- Overall default of one setting: the command-line flag, else the value of
the DEFAULT section, else the built-in constant. -/
def getOverallDefault (cfg : File) (ourDefault flagDefault iniKey : String) : String :=
  -- command-line given flag always trumps
  if flagDefault.length ≠ 0 then flagDefault
  else
    -- INI key flag always trumps
    let ourINIValue := (cfg.Section "").Key cfg iniKey
    if ourINIValue.length ≠ 0 then ourINIValue
    -- Our default is otherwise used
    else ourDefault

/-- Value of a key of the section (a section of the file `cfg`), else the
given default. -/
def getSectionValue (cfg : File) (s : Section) (key defaultValue : String) : String :=
  let sectionValue := s.Key cfg key
  if sectionValue.length ≠ 0 then sectionValue else defaultValue

/-- The cascade of one setting: the section's own value when it is not empty,
else the overall default. -/
def cascade (s : Section) (key overallDefault : String) : String :=
  if s.own key ≠ "" then s.own key else overallDefault

/-- The effective idle-timeout string of a section: its own
`idle_timeout_minutes`, else the DEFAULT section's, else the built-in `15`. -/
def effectiveIdleTimeout (cfg : File) (s : Section) : String :=
  if s.own "idle_timeout_minutes" ≠ "" then s.own "idle_timeout_minutes"
  else if (cfg.Section "").own "idle_timeout_minutes" ≠ ""
    then (cfg.Section "").own "idle_timeout_minutes"
  else "15"

/-! ## strconv.Atoi -/

/-- The two errors of `strconv.Atoi`. -/
inductive NumError where
  | ErrSyntax
  | ErrRange
  deriving DecidableEq, Repr

/-- The digit loop of `strconv.Atoi` (that of `ParseUint` for base 10 and 64
bits): a character that is not a decimal digit is a syntax error, a value
that leaves the unsigned 64-bit range is a range error, whichever comes
first. -/
def atoiDigits : List Char → Nat → Except NumError Nat
  | [], n => .ok n
  | ch :: rest, n =>
    if '0' ≤ ch ∧ ch ≤ '9' then
      if n ≥ (2 ^ 64 - 1) / 10 + 1 then .error .ErrRange
      else if n * 10 + (ch.toNat - '0'.toNat) > 2 ^ 64 - 1 then .error .ErrRange
      else atoiDigits rest (n * 10 + (ch.toNat - '0'.toNat))
    else .error .ErrSyntax

/-- Go's `strconv.Atoi` for a 64-bit `int`: an optional sign, then one or more
decimal digits; a value outside the `int` range is a range error. -/
def Atoi (s : String) : Except NumError Int :=
  match s.data with
  | [] => .error .ErrSyntax
  | c :: rest =>
    let digits := if c = '-' ∨ c = '+' then rest else c :: rest
    if digits.isEmpty then .error .ErrSyntax
    else
      match atoiDigits digits 0 with
      | .error e => .error e
      | .ok un =>
        if c ≠ '-' ∧ un ≥ 2 ^ 63 then .error .ErrRange
        else if c = '-' ∧ un > 2 ^ 63 then .error .ErrRange
        else .ok (if c = '-' then -(un : Int) else (un : Int))

/-- Whether the idle-timeout string is refused: not a number for
`strconv.Atoi`, or a number that is at most 0 or greater than 29. -/
def idleTimeoutRefused (v : String) : Bool :=
  match Atoi v with
  | .error _ => true
  | .ok n => decide (n ≤ 0) || decide (29 < n)

/-! ## External commands -/

/-- An `exec.Cmd` as built by `exec.Command(name, args...)` with its `Env`. -/
structure Cmd where
  Path : String
  Args : List String
  Env : List String
  deriving DecidableEq, Repr

/-- What `cmd.Run()` gives back: the error (`none` is `nil`), and the captured
standard output and standard error. -/
structure RunResult where
  err : Option String
  stdout : String
  stderr : String
  deriving DecidableEq, Repr

/-- The process environment `os.Environ()` and the effect of running a
command in it. -/
structure Host where
  Environ : List String
  Run : Cmd → RunResult

/-- An IMAPIDOL account's whole configuration. -/
structure IMAPIDOLAccount where
  Account : String
  Command : String
  Email : String
  Folder : String
  PasswordCommand : String
  PasswordInsecure : String
  Server : String
  IdleTimeoutMinutes : Int
  deriving DecidableEq, Repr

/-- The environment `appendIMAPIDOLAccountEnvironment` sets on a command. -/
def appendIMAPIDOLAccountEnvironment (environ : List String)
    (account : IMAPIDOLAccount) : List String :=
  environ ++
    ["IMAPIDOL_ACCOUNT=" ++ account.Account,
     "IMAPIDOL_EMAIL=" ++ account.Email,
     "IMAPIDOL_FOLDER=" ++ account.Folder,
     "IMAPIDOL_SERVER=" ++ account.Server]

/-- The command `exec.Command("/bin/sh", "-c", script)` with the account's
environment. -/
def shCommand (environ : List String) (account : IMAPIDOLAccount)
    (script : String) : Cmd :=
  { Path := "/bin/sh", Args := ["/bin/sh", "-c", script],
    Env := appendIMAPIDOLAccountEnvironment environ account }

/-! ## applyConfigWithErr -/

/-- The `fmt.Errorf` results of `applyConfigWithErr`. -/
inductive ApplyError where
  | noCommand (account email : String)
  | badNumber (account email value : String) (err : NumError)
  | notPositive (account email value : String)
  | tooLarge (account email value : String)
  | passwordCommand (account command err stderr : String)
  | noSections
  deriving DecidableEq, Repr

/-- The message of a `strconv.Atoi` error for the input `num`; `quote` is
`strconv.Quote`. -/
def NumError.Error (quote : String → String) (e : NumError) (num : String) : String :=
  "strconv.Atoi: parsing " ++ quote num ++ ": " ++
    (match e with
     | .ErrSyntax => "invalid syntax"
     | .ErrRange => "value out of range")

/-- The message of a resolution error; `quote` is `strconv.Quote`. -/
def ApplyError.Error (quote : String → String) : ApplyError → String
  | .noCommand a e => "account " ++ a ++ " (" ++ e ++ ") does not have a command set"
  | .badNumber a e v err =>
      "account " ++ a ++ " (" ++ e ++ ") has a bad number for idle_timeout_minutes " ++
        v ++ ": " ++ err.Error quote v
  | .notPositive a e v =>
      "account " ++ a ++ " (" ++ e ++ ") has a bad <= 0 number for idle_timeout_minutes " ++ v
  | .tooLarge a e v =>
      "account " ++ a ++ " (" ++ e ++ ") has a bad > 29 number for idle_timeout_minutes " ++ v
  | .passwordCommand a c err stderr =>
      "Error executing password command for " ++ a ++ " (" ++ c ++ "): " ++ err ++ " " ++ stderr
  | .noSections => "There are no sections to work on"

/-- The four overall defaults computed at the top of `applyConfigWithErr`. -/
structure Defaults where
  Server : String
  Folder : String
  Command : String
  IdleTimeoutMinutes : String
  deriving DecidableEq, Repr

/-- The overall defaults of a configuration under the given flags. -/
def overallDefaults (fl : Flags) (cfg : File) : Defaults :=
  { Server := getOverallDefault cfg defaultServer fl.flagServer "server"
    Folder := getOverallDefault cfg defaultFolder fl.flagFolder "folder"
    Command := getOverallDefault cfg defaultCommand fl.flagCommand "command"
    IdleTimeoutMinutes :=
      getOverallDefault cfg defaultIdleTimeoutMinutes "" "idle_timeout_minutes" }

/-- Body of the loop of `applyConfigWithErr` for one non-DEFAULT section of
the file `cfg`: the account to append, or the error the function returns
with. -/
def applySection (h : Host) (cfg : File) (d : Defaults) (s : Section) :
    Except ApplyError IMAPIDOLAccount :=
  let acct : IMAPIDOLAccount :=
    { Account := s.Name
      -- There is no default email, password_insecure or password_command
      Email := getSectionValue cfg s "email" ""
      PasswordInsecure := getSectionValue cfg s "password_insecure" ""
      PasswordCommand := getSectionValue cfg s "password_command" ""
      -- These instead can have values trickle down
      Command := getSectionValue cfg s "command" d.Command
      Folder := "", Server := "", IdleTimeoutMinutes := 0 }
  if acct.Command.length = 0 then .error (.noCommand acct.Account acct.Email)
  else
    let acct := { acct with
      Folder := getSectionValue cfg s "folder" d.Folder
      Server := getSectionValue cfg s "server" d.Server }
    let idleTimeoutMinutesVal :=
      getSectionValue cfg s "idle_timeout_minutes" d.IdleTimeoutMinutes
    match Atoi idleTimeoutMinutesVal with
    | .error err =>
        .error (.badNumber acct.Account acct.Email idleTimeoutMinutesVal err)
    | .ok idleTimeoutMinutes =>
      if idleTimeoutMinutes ≤ 0 then
        .error (.notPositive acct.Account acct.Email idleTimeoutMinutesVal)
      else if idleTimeoutMinutes > 29 then
        .error (.tooLarge acct.Account acct.Email idleTimeoutMinutesVal)
      else
        let acct := { acct with IdleTimeoutMinutes := idleTimeoutMinutes }
        if acct.PasswordInsecure.length = 0 then
          let r := h.Run (shCommand h.Environ acct acct.PasswordCommand)
          match r.err with
          | some err =>
              .error (.passwordCommand acct.Account acct.PasswordCommand err r.stderr)
          | none => .ok { acct with PasswordInsecure := r.stdout, PasswordCommand := "" }
        else .ok acct

/-- The loop over the sections: the list `*ii` and the counter `foundSections`
after the loop, and the error the loop returned with, if any. -/
def applySections (h : Host) (cfg : File) (d : Defaults) :
    List Section → List IMAPIDOLAccount → Nat →
      List IMAPIDOLAccount × Nat × Option ApplyError
  | [], ii, foundSections => (ii, foundSections, none)
  | s :: rest, ii, foundSections =>
    if s.Name ≠ "DEFAULT" then
      match applySection h cfg d s with
      | .error e => (ii, foundSections, some e)
      | .ok acct => applySections h cfg d rest (ii ++ [acct]) (foundSections + 1)
    else applySections h cfg d rest ii foundSections

/-- Result of `applyConfigWithErr(cfg, ii)`: the list `*ii` when the function
returns, and the returned error (`none` is `nil`). -/
def applyConfigWithErr (h : Host) (fl : Flags) (cfg : File)
    (ii : List IMAPIDOLAccount) : List IMAPIDOLAccount × Option ApplyError :=
  let d := overallDefaults fl cfg
  match applySections h cfg d cfg.Sections ii 0 with
  | (ii', _, some e) => (ii', some e)
  | (ii', foundSections, none) =>
    if foundSections = 0 then (ii', some .noSections) else (ii', none)

/-- The accounts the loop of `applyConfigWithErr` appends for a run of sections. -/
def accountsOf (h : Host) (cfg : File) (d : Defaults) (secs : List Section) :
    List IMAPIDOLAccount :=
  secs.filterMap (fun s =>
    if s.Name ≠ "DEFAULT" then
      match applySection h cfg d s with
      | .ok a => some a
      | .error _ => none
    else none)

/-- The password command `applyConfigWithErr` runs for a section without
`password_insecure`: `/bin/sh -c` with the section's `password_command` and
the environment of the account resolved so far. -/
def passwordCmd (h : Host) (cfg : File) (d : Defaults) (s : Section) : Cmd :=
  { Path := "/bin/sh", Args := ["/bin/sh", "-c", s.Key cfg "password_command"],
    Env := h.Environ ++
      ["IMAPIDOL_ACCOUNT=" ++ s.Name, "IMAPIDOL_EMAIL=" ++ s.Key cfg "email",
       "IMAPIDOL_FOLDER=" ++ getSectionValue cfg s "folder" d.Folder,
       "IMAPIDOL_SERVER=" ++ getSectionValue cfg s "server" d.Server] }

/-- No section of the file is a parent section of `s`: the file has no
section named by a prefix of the name of `s` that ends before a `.`. -/
def noParentIn (cfg : File) (s : Section) : Prop :=
  ∀ p ∈ parentNames s.Name, cfg.GetSection p = none

instance (cfg : File) (s : Section) : Decidable (noParentIn cfg s) := by
  unfold noParentIn
  infer_instance

/-- The message of the error contains the given text; `quote` is
`strconv.Quote`. -/
def ApplyError.names (quote : String → String) (e : ApplyError) (text : String) : Prop :=
  text.data <:+: (e.Error quote).data

instance (quote : String → String) (e : ApplyError) (text : String) :
    Decidable (e.names quote text) := by
  unfold ApplyError.names
  infer_instance

/-! ## The event loop of handleAccount -/

/-- A `client.Update` received on the `updates` channel: a
`*client.MailboxUpdate`, or a value of another type (named by `typeName`). -/
inductive Update where
  | MailboxUpdate (mailbox : String)
  | Other (typeName : String) (payload : String)
  deriving DecidableEq, Repr

/-- Whether the type switch takes the `*client.MailboxUpdate` case. -/
def Update.isMailboxUpdate : Update → Bool
  | .MailboxUpdate _ => true
  | .Other _ _ => false

/-- Where the goroutine running the loop is: in the loop, returned, or
ended by `log.Fatalf`. -/
inductive Phase where
  | Watching
  | Terminated
  | Failed
  deriving DecidableEq, Repr

/-- What has woken a goroutine parked in the `select`: the close of
`shutdownCh`, a value sent on `updates`, or a value sent on `done`. The
value is handed over with the wake-up. -/
inductive Wake where
  | shutdown
  | update (u : Update)
  | done (err : Option String)
  deriving DecidableEq, Repr

/-- Where the `select` statement of the loop is. -/
inductive Wait where
  /-- The statement is reached and has not looked at its channels yet. -/
  | polling
  /-- No channel was ready: the goroutine is parked on all three channels. -/
  | parked
  /-- A close or a send has woken the parked goroutine: the case is fixed. -/
  | woken (w : Wake)
  deriving DecidableEq, Repr

/-- State of one session in the loop of `handleAccount`, with the three
channels it waits on and the record of what it has done. -/
structure Session where
  phase : Phase
  /-- Where the `select` is, while the phase is `Watching`. -/
  wait : Wait
  /-- Whether `shutdownCh` has been closed. -/
  shutdownClosed : Bool
  /-- The value a sender is blocked with on the unbuffered `updates` channel. -/
  pending : Option Update
  /-- The content of the buffered channel `done` (capacity 1). -/
  done : Option (Option String)
  /-- The updates received by `case update := <-updates`, in order. -/
  received : List Update
  /-- The commands run by the notification branch, each with the update that
  triggered it, in order. -/
  notified : List (Update × Cmd)
  deriving DecidableEq, Repr

/-- The session when the loop is entered. -/
def Session.init : Session :=
  { phase := .Watching, wait := .polling, shutdownClosed := false, pending := none,
    done := none, received := [], notified := [] }

/-- Whether the goroutine is parked in the `select`. -/
def Session.isParked (st : Session) : Bool :=
  decide (st.phase = .Watching) && decide (st.wait = .parked)

/-- The updates sent on `updates` that the case body has not taken yet: the
one handed to the woken `select`, then the one a sender is blocked with. -/
def Session.inFlight (st : Session) : List Update :=
  (match st.wait with
   | .woken (.update u) => [u]
   | _ => []) ++ st.pending.toList

/-- One step of the system around the `select`: the three things other
goroutines do to the channels, and what the `select` does. -/
inductive Action where
  /-- `close(shutdownCh)` in `runIMAPIDOL`. -/
  | closeShutdown
  /-- The IMAP client sends a value on `updates`. -/
  | offerUpdate (u : Update)
  /-- `done <- idleClient.IdleWithFallback(...)`. -/
  | idleReturns (err : Option String)
  /-- The `select` finds no channel ready and parks the goroutine. -/
  | park
  /-- `case <-shutdownCh`. -/
  | selectShutdown
  /-- `case update := <-updates`; `run` is what `cmd.Run()` gives back if the
  notification command is run. -/
  | selectUpdate (run : RunResult)
  /-- `case err := <-done`. -/
  | selectDone
  deriving DecidableEq, Repr

/-- The session has been woken by the close of `shutdownCh`, or has returned
after it. -/
def Session.committed (st : Session) : Prop :=
  st.wait = .woken .shutdown ∧ st.shutdownClosed = true ∧
    (st.phase = .Watching ∨ st.phase = .Terminated)

/-- The command the notification branch runs. -/
def notifierCmd (environ : List String) (account : IMAPIDOLAccount) : Cmd :=
  shCommand environ account account.Command

/-- Body of `case update := <-updates`: the update is recorded as received;
a `*client.MailboxUpdate` runs the notification command, whose failure ends
the process; the loop then comes back to the `select`. -/
def handleUpdate (environ : List String) (account : IMAPIDOLAccount)
    (st : Session) (update : Update) (run : RunResult) : Session :=
  let st := { st with wait := .polling, received := st.received ++ [update] }
  match update with
  | .MailboxUpdate _ =>
    let st := { st with
      notified := st.notified ++ [(update, notifierCmd environ account)] }
    match run.err with
    | some _ => { st with phase := .Failed }
    | none => st
  | .Other _ _ => st

/-- Body of `case err := <-done`: an error ends the process, `nil` makes the
function return. -/
def handleDone (st : Session) (err : Option String) : Session :=
  match err with
  | some _ => { st with phase := .Failed }
  | none => { st with phase := .Terminated }

/-- The step function: `none` when the action cannot happen in the state.

A `select` that has just been reached takes any one of the cases whose
channel is ready, and parks the goroutine when none is. A close or a send
that finds the goroutine parked wakes it for that case, and no other case
can be taken then; a send that does not find it parked waits (`updates`) or
is buffered (`done`). -/
def step (environ : List String) (account : IMAPIDOLAccount)
    (st : Session) : Action → Option Session
  | .closeShutdown =>
    if st.shutdownClosed then none
    else if st.isParked then
      some { st with shutdownClosed := true, wait := .woken .shutdown }
    else some { st with shutdownClosed := true }
  | .offerUpdate u =>
    match st.pending with
    | some _ => none
    | none =>
      if st.isParked then some { st with wait := .woken (.update u) }
      else some { st with pending := some u }
  | .idleReturns err =>
    match st.done with
    | some _ => none
    | none =>
      if st.isParked then some { st with wait := .woken (.done err) }
      else some { st with done := some err }
  | .park =>
    if st.phase = .Watching ∧ st.wait = .polling ∧ st.shutdownClosed = false ∧
        st.pending = none ∧ st.done = none then
      some { st with wait := .parked }
    else none
  | .selectShutdown =>
    if st.phase = .Watching ∧
        ((st.wait = .polling ∧ st.shutdownClosed = true) ∨ st.wait = .woken .shutdown) then
      some { st with phase := .Terminated }
    else none
  | .selectUpdate run =>
    if st.phase = .Watching then
      match st.wait with
      | .polling =>
        match st.pending with
        | none => none
        | some update => some (handleUpdate environ account { st with pending := none } update run)
      | .woken (.update update) => some (handleUpdate environ account st update run)
      | _ => none
    else none
  | .selectDone =>
    if st.phase = .Watching then
      match st.wait with
      | .polling =>
        match st.done with
        | none => none
        | some err => some (handleDone { st with done := none } err)
      | .woken (.done err) => some (handleDone st err)
      | _ => none
    else none

/-- Running a sequence of actions; `none` when one of them cannot happen. -/
def run (environ : List String) (account : IMAPIDOLAccount) :
    Session → List Action → Option Session
  | st, [] => some st
  | st, a :: rest =>
    match step environ account st a with
    | none => none
    | some st' => run environ account st' rest

/-- Whether the action is one of the session itself (what its `select` does)
and not something another goroutine does to a channel. -/
def Action.isSelect : Action → Bool
  | .park => true
  | .selectShutdown => true
  | .selectUpdate _ => true
  | .selectDone => true
  | _ => false

/-- The updates sent on the `updates` channel in a sequence of actions. -/
def offered : List Action → List Update
  | [] => []
  | .offerUpdate u :: rest => u :: offered rest
  | _ :: rest => offered rest

/-- The record the notification branch leaves for a list of received updates:
one entry per `*client.MailboxUpdate`, in order, none for the others. -/
def notificationsFor (environ : List String) (account : IMAPIDOLAccount)
    (updates : List Update) : List (Update × Cmd) :=
  (updates.filter Update.isMailboxUpdate).map (fun u => (u, notifierCmd environ account))

/-! ## Examples -/

/-- An account as resolution produces it. -/
def exResolved : IMAPIDOLAccount :=
  { Account := "work", Command := "notify-send mail", Email := "w@example.com",
    Folder := "INBOX", PasswordCommand := "", PasswordInsecure := "hunter2",
    Server := "mail.example.com:993", IdleTimeoutMinutes := 10 }

/-- A command run that succeeds. -/
def runOk : RunResult := { err := none, stdout := "", stderr := "" }

/-- The session parked in the `select`, no channel being ready. -/
def exParked : Session := { Session.init with wait := .parked }

/-- A host on which every command succeeds and prints `secret`. -/
def exHost : Host :=
  { Environ := ["HOME=/root"], Run := fun _ => { err := none, stdout := "secret", stderr := "" } }

/-- No command-line flag given. -/
def noFlags : Flags := { flagFolder := "", flagServer := "", flagCommand := "" }

/-- An empty DEFAULT section. -/
def exDefault : Section := { Name := "DEFAULT", Keys := [] }

/-- An account section that sets neither secret key. -/
def exNoSecret : Section := { Name := "work", Keys := [.plain "email" "w@example.com"] }

/-- An account section that sets both secret keys. -/
def exBothSecrets : Section :=
  { Name := "work",
    Keys := [.plain "email" "w@example.com", .plain "password_command" "pass w",
             .plain "password_insecure" "hunter2"] }

/-- An account section that sets one secret key and no `email`. -/
def exNoEmail : Section := { Name := "home", Keys := [.plain "password_insecure" "hunter2"] }

/-- An account section with a key outside the allow-list. -/
def exBogus : Section :=
  { Name := "work",
    Keys := [.plain "email" "w@example.com", .plain "bogus" "1", .plain "password_insecure" "hunter2"] }

/-- A DEFAULT section that sets `password_command`. -/
def exDefaultSecret : Section :=
  { Name := "DEFAULT", Keys := [.plain "server" "mail.example.com:993", .plain "password_command" "pass"] }

/-- A DEFAULT section that sets `server` and `idle_timeout_minutes`. -/
def exDefaultServer : Section :=
  { Name := "DEFAULT",
    Keys := [.plain "server" "mail.example.com:993", .plain "idle_timeout_minutes" "10"] }

/-- A host on which every command fails. -/
def exFailingHost : Host :=
  { Environ := [], Run := fun _ => { err := some "exit status 1", stdout := "", stderr := "no" } }

/-- A DEFAULT section that sets the command for all accounts. -/
def exDefaultCommand : Section :=
  { Name := "DEFAULT", Keys := [.plain "command" "notify-send mail"] }

/-- An account section with the given name and `idle_timeout_minutes`. -/
def exTimeout (name value : String) : Section :=
  { Name := name,
    Keys := [.plain "email" "user@example.com", .plain "password_insecure" "hunter2",
             .plain "idle_timeout_minutes" value] }

/-- The account section of the end-to-end example. -/
def exAccount : Section :=
  { Name := "a",
    Keys := [.plain "email" "a@example.com", .plain "password_insecure" "x",
             .plain "command" "notify-send hi"] }

/-- An account section `a` that sets command, folder and idle timeout. -/
def exParent : Section :=
  { Name := "a",
    Keys := [.plain "email" "a@example.com", .plain "password_insecure" "x",
             .plain "command" "parent-cmd", .plain "folder" "ParentFolder",
             .plain "idle_timeout_minutes" "5"] }

/-- An account section `a.b` that sets only its email and password. -/
def exChild : Section :=
  { Name := "a.b",
    Keys := [.plain "email" "b@example.com", .plain "password_insecure" "y"] }

/-- A DEFAULT section that sets a command and the idle timeout `45`. -/
def exDefault45 : Section :=
  { Name := "DEFAULT",
    Keys := [.plain "command" "notify-send mail", .plain "idle_timeout_minutes" "45"] }

/-- An account section whose password comes from a command. -/
def exPasswordCommand : Section :=
  { Name := "work",
    Keys := [.plain "email" "user@example.com", .plain "password_command" "pass work",
             .plain "idle_timeout_minutes" "29"] }

/-- An account section whose `email` key has an empty value. -/
def exEmptyEmail : Section :=
  { Name := "work",
    Keys := [.plain "email" "", .plain "password_insecure" "hunter2", .plain "command" "notify-send hi"] }

/-! ## Lemmas on validation -/

theorem foundIn_iff (names : List String) (name : String) :
    foundIn names name = true ↔ name ∈ names := by
  unfold foundIn
  rw [List.any_eq_true]
  constructor
  · rintro ⟨x, hx, hb⟩
    have : x = name := by simpa using hb
    exact this ▸ hx
  · intro h
    exact ⟨name, h, by simp⟩

theorem foundIn_eq_false_iff (names : List String) (name : String) :
    foundIn names name = false ↔ name ∉ names := by
  rw [← foundIn_iff]
  cases foundIn names name <;> simp

theorem foundEitherOr_foldl (ks : List Key) (n : Nat) :
    ks.foldl
      (fun n k => requiredINIKeysEitherOr.foldl
        (fun m rk => if rk = k.Name then m + 1 else m) n) n
    = n + (ks.map (fun k => k.Name)).count "password_command"
        + (ks.map (fun k => k.Name)).count "password_insecure" := by
  induction ks generalizing n with
  | nil => simp
  | cons k ks ih =>
    rw [List.foldl_cons, ih]
    simp only [requiredINIKeysEitherOr, List.foldl_cons, List.foldl_nil, List.map_cons,
      List.count_cons]
    by_cases h1 : "password_command" = k.Name <;> by_cases h2 : "password_insecure" = k.Name
    · exact absurd (h1.trans h2.symm) (by decide)
    · have h2' : ¬ k.Name = "password_insecure" := fun h => h2 h.symm
      simp [h1.symm]
      omega
    · have h1' : ¬ k.Name = "password_command" := fun h => h1 h.symm
      simp [h2.symm]
      omega
    · have h1' : ¬ k.Name = "password_command" := fun h => h1 h.symm
      have h2' : ¬ k.Name = "password_insecure" := fun h => h2 h.symm
      simp [h1, h2, h1', h2']

theorem foundEitherOr_eq (s : Section) :
    foundEitherOr s =
      s.keyNames.count "password_command" + s.keyNames.count "password_insecure" := by
  unfold foundEitherOr Section.keyNames
  rw [foundEitherOr_foldl]
  omega

theorem validateSections_some_mem (secs : List Section) (e : ValidateError)
    (h : validateSections secs = some e) : ∃ s ∈ secs, validateSection s = some e := by
  induction secs with
  | nil => simp [validateSections] at h
  | cons s rest ih =>
    unfold validateSections at h
    cases hs : validateSection s with
    | some e' =>
      rw [hs] at h
      exact ⟨s, List.mem_cons_self _ _, by rw [hs]; exact h⟩
    | none =>
      rw [hs] at h
      obtain ⟨t, ht, hte⟩ := ih h
      exact ⟨t, List.mem_cons_of_mem _ ht, hte⟩

theorem validateSections_isSome_of_mem (secs : List Section) (s : Section)
    (hs : s ∈ secs) (h : ∃ e, validateSection s = some e) :
    ∃ e, validateSections secs = some e := by
  induction secs with
  | nil => cases hs
  | cons t rest ih =>
    unfold validateSections
    cases ht : validateSection t with
    | some e' => exact ⟨e', rfl⟩
    | none =>
      rcases List.mem_cons.mp hs with rfl | hmem
      · obtain ⟨e, he⟩ := h
        rw [he] at ht
        cases ht
      · exact ih hmem

theorem validateSections_append (pre rest : List Section)
    (hpre : ∀ p ∈ pre, validateSection p = none) :
    validateSections (pre ++ rest) = validateSections rest := by
  induction pre with
  | nil => rfl
  | cons p pre ih =>
    rw [List.cons_append, validateSections, hpre p (List.mem_cons_self _ _)]
    exact ih (fun q hq => hpre q (List.mem_cons_of_mem _ hq))

theorem validateSection_invalidKey (s : Section) (ks1 ks2 : List Key) (k : Key)
    (hs : s.Keys = ks1 ++ k :: ks2)
    (hks1 : ∀ q ∈ ks1, q.Name ∈ validINIKeys) (hk : k.Name ∉ validINIKeys) :
    validateSection s = some (.invalidKey s.Name k.Name k.Value) := by
  have hfind : s.Keys.find? (fun k => !foundIn validINIKeys k.Name) = some k := by
    rw [hs, List.find?_append]
    have h1 : ks1.find? (fun k => !foundIn validINIKeys k.Name) = none := by
      rw [List.find?_eq_none]
      intro q hq
      have := (foundIn_iff validINIKeys q.Name).mpr (hks1 q hq)
      simp [this]
    have h2 : foundIn validINIKeys k.Name = false :=
      (foundIn_eq_false_iff _ _).mpr hk
    rw [h1]
    simp [List.find?_cons, h2]
  unfold validateSection
  rw [hfind]

theorem validateSection_isSome_of_invalidKey (s : Section) (k : String)
    (hk : k ∈ s.keyNames) (hbad : k ∉ validINIKeys) :
    ∃ e, validateSection s = some e := by
  unfold validateSection
  cases hfind : s.Keys.find? (fun k => !foundIn validINIKeys k.Name) with
  | some k' => exact ⟨_, rfl⟩
  | none =>
    exfalso
    rw [List.find?_eq_none] at hfind
    obtain ⟨q, hq, rfl⟩ := List.mem_map.mp hk
    have := hfind q hq
    have h2 := (foundIn_eq_false_iff _ _).mpr hbad
    simp [h2] at this

theorem validateSection_isSome_of_eitherOr (s : Section) (hname : s.Name ≠ "DEFAULT")
    (h : foundEitherOr s = 0 ∨ foundEitherOr s > 1) :
    ∃ e, validateSection s = some e := by
  unfold validateSection
  cases s.Keys.find? (fun k => !foundIn validINIKeys k.Name) with
  | some k' => exact ⟨_, rfl⟩
  | none =>
    cases requiredINIKeys.find?
        (fun rk => !foundIn s.keyNames rk && decide (s.Name ≠ "DEFAULT")) with
    | some rk => exact ⟨_, rfl⟩
    | none =>
      rcases h with h0 | h2
      · have : ¬ (foundEitherOr s > 1 ∧ s.Name ≠ "DEFAULT") := by omega
        simp only [this, if_false, h0, hname, ne_eq, not_false_eq_true, and_self, if_true]
        exact ⟨_, rfl⟩
      · simp only [h2, hname, ne_eq, not_false_eq_true, and_self, if_true]
        exact ⟨_, rfl⟩

theorem validateSection_eitherOr_inv (s : Section) (e : ValidateError)
    (h : validateSection s = some e) (he : e.isEitherOr = true) :
    s.Name ≠ "DEFAULT" ∧ (foundEitherOr s = 0 ∨ foundEitherOr s > 1) := by
  unfold validateSection at h
  split at h
  · cases h; cases he
  · split at h
    · cases h; cases he
    · split at h
      · rename_i hc
        exact ⟨hc.2, Or.inr hc.1⟩
      · split at h
        · rename_i hc
          exact ⟨hc.2, Or.inl hc.1⟩
        · split at h
          · split at h
            · cases h; cases he
            · cases h
          · cases h

theorem validateSection_isSome_of_default (s : Section) (hname : s.Name = "DEFAULT")
    (k : String) (hk : k ∈ s.keyNames) (hbad : k ∈ invalidINIKeysDefault) :
    ∃ e, validateSection s = some e := by
  unfold validateSection
  cases s.Keys.find? (fun k => !foundIn validINIKeys k.Name) with
  | some k' => exact ⟨_, rfl⟩
  | none =>
    cases requiredINIKeys.find?
        (fun rk => !foundIn s.keyNames rk && decide (s.Name ≠ "DEFAULT")) with
    | some rk => exact ⟨_, rfl⟩
    | none =>
      have h1 : ¬ (foundEitherOr s > 1 ∧ s.Name ≠ "DEFAULT") := fun h => h.2 hname
      have h2 : ¬ (foundEitherOr s = 0 ∧ s.Name ≠ "DEFAULT") := fun h => h.2 hname
      rw [if_neg h1, if_neg h2, if_pos hname]
      cases hfind : invalidINIKeysDefault.find? (fun ik => foundIn s.keyNames ik) with
      | some ik => exact ⟨_, rfl⟩
      | none =>
        exfalso
        rw [List.find?_eq_none] at hfind
        have := hfind k hbad
        simp [(foundIn_iff _ _).mpr hk] at this

/-! ## Validation: the claims -/

/-- C1. In every configuration, a non-DEFAULT section that sets neither
`password_command` nor `password_insecure`, or that sets both, makes
`validateConfigWithErr` return an error; and when every non-DEFAULT section
(with the unique key names of the data model) sets exactly one of the two, the
error returned, if any, is not one of the two either/or rejections. -/
theorem validate_either_or (cfg : File) :
    (∀ s ∈ cfg.Sections, s.Name ≠ "DEFAULT" →
      (("password_command" ∉ s.keyNames ∧ "password_insecure" ∉ s.keyNames) ∨
       ("password_command" ∈ s.keyNames ∧ "password_insecure" ∈ s.keyNames)) →
      ∃ e, validateConfigWithErr cfg = some e) ∧
    ((∀ s ∈ cfg.Sections, s.Name ≠ "DEFAULT" →
        s.keyNames.Nodup ∧
        (("password_command" ∈ s.keyNames ∧ "password_insecure" ∉ s.keyNames) ∨
         ("password_command" ∉ s.keyNames ∧ "password_insecure" ∈ s.keyNames))) →
      ∀ e, validateConfigWithErr cfg = some e → e.isEitherOr = false) := by
  constructor
  · intro s hs hname h
    apply validateSections_isSome_of_mem cfg.Sections s hs
    apply validateSection_isSome_of_eitherOr s hname
    rw [foundEitherOr_eq]
    rcases h with ⟨h1, h2⟩ | ⟨h1, h2⟩
    · left
      rw [List.count_eq_zero_of_not_mem h1, List.count_eq_zero_of_not_mem h2]
    · right
      have := List.count_pos_iff.mpr h1
      have := List.count_pos_iff.mpr h2
      omega
  · intro hall e he
    cases hiso : e.isEitherOr with
    | false => rfl
    | true =>
      exfalso
      obtain ⟨s, hs, hse⟩ := validateSections_some_mem _ _ he
      obtain ⟨hname, hcount⟩ := validateSection_eitherOr_inv s e hse hiso
      obtain ⟨hnd, hone⟩ := hall s hs hname
      rw [foundEitherOr_eq] at hcount
      have hc1 := List.nodup_iff_count_le_one.mp hnd "password_command"
      have hc2 := List.nodup_iff_count_le_one.mp hnd "password_insecure"
      rcases hone with ⟨h1, h2⟩ | ⟨h1, h2⟩
      · have := List.count_pos_iff.mpr h1
        rw [List.count_eq_zero_of_not_mem h2] at hcount
        omega
      · have := List.count_pos_iff.mpr h2
        rw [List.count_eq_zero_of_not_mem h1] at hcount
        omega

/-- Witness for C1: a section with no secret key and a section with both are
rejected; a configuration whose only account section sets one secret key but
no `email` is rejected, and not by the either/or rule. -/
theorem validate_either_or_witness :
    (∃ e, validateConfigWithErr ⟨[exDefault, exNoSecret]⟩ = some e) ∧
    (∃ e, validateConfigWithErr ⟨[exDefault, exBothSecrets]⟩ = some e) ∧
    validateConfigWithErr ⟨[exDefault, exNoEmail]⟩ = some (.missingRequired "home" "email") ∧
    (∀ e, validateConfigWithErr ⟨[exDefault, exNoEmail]⟩ = some e → e.isEitherOr = false) :=
  ⟨(validate_either_or ⟨[exDefault, exNoSecret]⟩).1 exNoSecret (by decide) (by decide)
      (by decide),
   (validate_either_or ⟨[exDefault, exBothSecrets]⟩).1 exBothSecrets (by decide) (by decide)
      (by decide),
   by decide,
   (validate_either_or ⟨[exDefault, exNoEmail]⟩).2 (by decide)⟩

/-- C2, as stated, fails: in the configuration `DEFAULT`, `home` (no `email`),
`work` (with the key `bogus`), the error returned is the missing `email` of
`home`, and its message does not contain `bogus`. -/
theorem validate_invalid_key_not_named :
    ¬ (∀ (cfg : File) (s : Section) (k : String), s ∈ cfg.Sections → k ∈ s.keyNames →
        k ∉ validINIKeys → ∃ e, validateConfigWithErr cfg = some e ∧ e.namesKey k) := by
  intro h
  obtain ⟨e, he, hn⟩ := h ⟨[exDefault, exNoEmail, exBogus]⟩ exBogus "bogus"
    (by decide) (by decide) (by decide)
  have hval : validateConfigWithErr ⟨[exDefault, exNoEmail, exBogus]⟩
      = some (.missingRequired "home" "email") := by decide
  rw [hval] at he
  cases he
  revert hn
  decide

/-- C2, amended. A configuration in which some section has a key outside the
allow-list is rejected. The error is the first violation in file order: when
all sections before that section pass and the key is the first key of its
section outside the allow-list, the error is the invalid-key error of that
section, key and raw value, and its message contains the key. -/
theorem validate_invalid_key (cfg : File) (s : Section) (k : String)
    (hs : s ∈ cfg.Sections) (hk : k ∈ s.keyNames) (hbad : k ∉ validINIKeys) :
    (∃ e, validateConfigWithErr cfg = some e) ∧
    (∀ (pre post : List Section) (ks1 ks2 : List Key) (v str : String),
      cfg.Sections = pre ++ s :: post → (∀ p ∈ pre, validateSection p = none) →
      s.Keys = ks1 ++ ⟨k, v, str⟩ :: ks2 → (∀ q ∈ ks1, q.Name ∈ validINIKeys) →
      validateConfigWithErr cfg = some (.invalidKey s.Name k v) ∧
      (ValidateError.invalidKey s.Name k v).namesKey k) := by
  constructor
  · exact validateSections_isSome_of_mem cfg.Sections s hs
      (validateSection_isSome_of_invalidKey s k hk hbad)
  · intro pre post ks1 ks2 v str hcfg hpre hkeys hks1
    constructor
    · unfold validateConfigWithErr
      rw [hcfg, validateSections_append pre _ hpre, validateSections,
        validateSection_invalidKey s ks1 ks2 ⟨k, v, str⟩ hkeys hks1 hbad]
    · unfold ValidateError.namesKey ValidateError.Error
      simp only [String.data_append]
      exact ⟨("section " ++ s.Name ++ " has invalid key ").data,
        (" (=" ++ v ++ "). Valid INI section keys: " ++ fmtStrings validINIKeys).data,
        by simp [String.data_append, List.append_assoc]⟩

/-- Witness for C2 amended: the configuration `DEFAULT`, `work` (with the key
`bogus = 1`) is rejected with the invalid-key error naming `work`, `bogus`
and `1`. -/
theorem validate_invalid_key_witness :
    validateConfigWithErr ⟨[exDefault, exBogus]⟩ = some (.invalidKey "work" "bogus" "1") ∧
    (ValidateError.invalidKey "work" "bogus" "1").namesKey "bogus" :=
  (validate_invalid_key ⟨[exDefault, exBogus]⟩ exBogus "bogus" (by decide) (by decide)
    (by decide)).2 [exDefault] [] [.plain "email" "w@example.com"]
    [.plain "password_insecure" "hunter2"] "1" "1" rfl (by decide) rfl (by decide)

/-- C3. A configuration with a section named `DEFAULT` that has one of the
keys `email`, `password_insecure`, `password_command` is rejected, whatever
the other sections are. -/
theorem validate_default_restricted (cfg : File) (s : Section) (k : String)
    (hs : s ∈ cfg.Sections) (hname : s.Name = "DEFAULT") (hk : k ∈ s.keyNames)
    (hbad : k = "email" ∨ k = "password_insecure" ∨ k = "password_command") :
    ∃ e, validateConfigWithErr cfg = some e := by
  apply validateSections_isSome_of_mem cfg.Sections s hs
  apply validateSection_isSome_of_default s hname k hk
  rcases hbad with rfl | rfl | rfl <;> decide

/-- Witness for C3: a DEFAULT section with `password_command`, followed by
a well-formed account section, is rejected, with the error of the DEFAULT
section. -/
theorem validate_default_restricted_witness :
    (∃ e, validateConfigWithErr
      ⟨[exDefaultSecret, ⟨"home", [.plain "email" "h@example.com", .plain "password_insecure" "x"]⟩]⟩
      = some e) ∧
    validateConfigWithErr
      ⟨[exDefaultSecret, ⟨"home", [.plain "email" "h@example.com", .plain "password_insecure" "x"]⟩]⟩
      = some (.unsupportedDefault "DEFAULT" "password_command") :=
  ⟨validate_default_restricted _ exDefaultSecret "password_command" (by decide) (by decide)
    (by decide) (by decide), by decide⟩

/-! ## Overall defaults -/

theorem length_ne_zero_iff (s : String) : s.length ≠ 0 ↔ s ≠ "" := by
  cases s with
  | mk l =>
    cases l with
    | nil => simp [String.length]
    | cons c cs =>
      simp only [String.length_mk, List.length_cons, ne_eq, Nat.succ_ne_zero, not_false_eq_true,
        true_iff]
      intro h
      have := congrArg String.data h
      simp at this

theorem length_eq_zero_iff (s : String) : s.length = 0 ↔ s = "" := by
  have := length_ne_zero_iff s
  constructor
  · intro h
    by_contra hne
    exact (this.mpr hne) h
  · intro h
    by_contra hne
    exact (this.mp hne) h

theorem section_default_name (cfg : File) : (cfg.Section "").Name = "DEFAULT" := by
  unfold File.Section File.GetSection
  cases hfind : cfg.Sections.find? (fun s => s.Name == (if "" = "" then "DEFAULT" else "")) with
  | none => rfl
  | some t =>
    have := List.find?_some hfind
    simpa using this

theorem parentKey_of_none (cfg : File) (name : String) (ps : List String)
    (hps : ∀ p ∈ ps, cfg.GetSection p = none) : cfg.parentKey name ps = none := by
  induction ps with
  | nil => rfl
  | cons p ps ih =>
    rw [File.parentKey, hps p (List.mem_cons_self _ _)]
    exact ih (fun q hq => hps q (List.mem_cons_of_mem _ hq))

theorem key_eq_own_of_noParent (cfg : File) (s : Section) (key : String)
    (hs : noParentIn cfg s) : s.Key cfg key = s.own key := by
  unfold Section.Key Section.GetKey Section.own
  cases s.ownKey key with
  | some k => rfl
  | none => rw [parentKey_of_none cfg key _ hs]

theorem key_eq_own_of_mem (cfg : File) (s : Section) (key : String)
    (hk : key ∈ s.keyNames) : s.Key cfg key = s.own key := by
  unfold Section.Key Section.GetKey Section.own
  cases hown : s.ownKey key with
  | some k => rfl
  | none =>
    exfalso
    unfold Section.ownKey at hown
    rw [List.find?_eq_none] at hown
    obtain ⟨q, hq, rfl⟩ := List.mem_map.mp hk
    simpa using hown q hq

theorem noParentIn_default (cfg : File) : noParentIn cfg (cfg.Section "") := by
  unfold noParentIn
  rw [section_default_name]
  have hnil : parentNames "DEFAULT" = [] := by decide
  rw [hnil]
  intro p hp
  cases hp

theorem default_key_eq_own (cfg : File) (key : String) :
    (cfg.Section "").Key cfg key = (cfg.Section "").own key :=
  key_eq_own_of_noParent cfg _ key (noParentIn_default cfg)

theorem overallDefaults_idle (fl : Flags) (cfg : File) :
    (overallDefaults fl cfg).IdleTimeoutMinutes
      = if (cfg.Section "").own "idle_timeout_minutes" ≠ ""
        then (cfg.Section "").own "idle_timeout_minutes" else "15" := by
  unfold overallDefaults getOverallDefault
  simp only []
  rw [if_neg (by decide), default_key_eq_own]
  by_cases hv : (cfg.Section "").own "idle_timeout_minutes" = ""
  · rw [if_neg (by rw [hv]; decide), if_neg (by simpa using hv)]
    rfl
  · rw [if_pos ((length_ne_zero_iff _).mpr hv), if_pos hv]

/-- C4. Precedence of `getOverallDefault`: a given (non-empty) command-line
flag is the result; without a flag a non-empty value of the DEFAULT section
is the result; without both the built-in constant is the result. The DEFAULT
section consulted is the first section of that name, and the value is that of
its own key. In `applyConfigWithErr` server, folder and command take their
flag, and the idle timeout takes none: its default is the DEFAULT section's
value, else `15`. -/
theorem getOverallDefault_precedence (cfg : File) (ourDefault flagDefault iniKey : String) :
    (flagDefault ≠ "" → getOverallDefault cfg ourDefault flagDefault iniKey = flagDefault) ∧
    (flagDefault = "" → (cfg.Section "").own iniKey ≠ "" →
      getOverallDefault cfg ourDefault flagDefault iniKey = (cfg.Section "").own iniKey) ∧
    (flagDefault = "" → (cfg.Section "").own iniKey = "" →
      getOverallDefault cfg ourDefault flagDefault iniKey = ourDefault) ∧
    (∀ (s : Section) (pre post : List Section), cfg.Sections = pre ++ s :: post →
      s.Name = "DEFAULT" → (∀ p ∈ pre, p.Name ≠ "DEFAULT") → cfg.Section "" = s) ∧
    (∀ fl : Flags,
      (overallDefaults fl cfg).Server
        = getOverallDefault cfg "imap.gmail.com:993" fl.flagServer "server" ∧
      (overallDefaults fl cfg).Folder = getOverallDefault cfg "INBOX" fl.flagFolder "folder" ∧
      (overallDefaults fl cfg).Command = getOverallDefault cfg "" fl.flagCommand "command" ∧
      (overallDefaults fl cfg).IdleTimeoutMinutes
        = if (cfg.Section "").own "idle_timeout_minutes" ≠ ""
          then (cfg.Section "").own "idle_timeout_minutes" else "15") := by
  refine ⟨?_, ?_, ?_, ?_, ?_⟩
  · intro hf
    unfold getOverallDefault
    rw [if_pos ((length_ne_zero_iff _).mpr hf)]
  · intro hf hv
    unfold getOverallDefault
    rw [if_neg (by rw [hf]; decide)]
    simp only []
    rw [default_key_eq_own, if_pos ((length_ne_zero_iff _).mpr hv)]
  · intro hf hv
    unfold getOverallDefault
    rw [if_neg (by rw [hf]; decide)]
    simp only []
    rw [default_key_eq_own, if_neg (by rw [hv]; decide)]
  · intro s pre post hcfg hname hpre
    unfold File.Section File.GetSection
    have hfind : cfg.Sections.find?
        (fun s => s.Name == (if "" = "" then "DEFAULT" else "")) = some s := by
      rw [hcfg, List.find?_append]
      have h1 : pre.find? (fun s => s.Name == (if "" = "" then "DEFAULT" else "")) = none := by
        rw [List.find?_eq_none]
        intro q hq
        simpa using hpre q hq
      rw [h1]
      simp [List.find?_cons, hname]
    rw [hfind]
  · intro fl
    exact ⟨rfl, rfl, rfl, overallDefaults_idle fl cfg⟩

/-- Witness for C4: with the DEFAULT section `server = mail.example.com:993`,
the flag `cli.example.com:993` wins over it, it wins over the built-in
constant, and a key the DEFAULT section does not set falls to the constant. -/
theorem getOverallDefault_precedence_witness :
    getOverallDefault ⟨[exDefaultServer]⟩ defaultServer "cli.example.com:993" "server"
      = "cli.example.com:993" ∧
    getOverallDefault ⟨[exDefaultServer]⟩ defaultServer "" "server" = "mail.example.com:993" ∧
    getOverallDefault ⟨[exDefaultServer]⟩ defaultFolder "" "folder" = "INBOX" ∧
    (File.mk [exDefaultServer]).Section "" = exDefaultServer :=
  ⟨(getOverallDefault_precedence ⟨[exDefaultServer]⟩ defaultServer "cli.example.com:993"
      "server").1 (by decide),
   (getOverallDefault_precedence ⟨[exDefaultServer]⟩ defaultServer "" "server").2.1 rfl
      (by decide),
   (getOverallDefault_precedence ⟨[exDefaultServer]⟩ defaultFolder "" "folder").2.2.1 rfl
      (by decide),
   (getOverallDefault_precedence ⟨[exDefaultServer]⟩ defaultServer "" "server").2.2.2.1
      exDefaultServer [] [] rfl rfl (by decide)⟩

/-! ## Lemmas on resolution -/

theorem getSectionValue_empty (cfg : File) (s : Section) (key : String) :
    getSectionValue cfg s key "" = s.Key cfg key := by
  unfold getSectionValue
  simp only []
  by_cases hv : s.Key cfg key = ""
  · rw [if_neg (by rw [hv]; decide), hv]
  · rw [if_pos ((length_ne_zero_iff _).mpr hv)]

theorem getSectionValue_of_noParent (cfg : File) (s : Section) (key d : String)
    (hs : noParentIn cfg s) : getSectionValue cfg s key d = cascade s key d := by
  unfold getSectionValue cascade
  simp only []
  rw [key_eq_own_of_noParent cfg s key hs]
  by_cases hv : s.own key = ""
  · rw [if_neg (by rw [hv]; decide), if_neg (by simpa using hv)]
  · rw [if_pos ((length_ne_zero_iff _).mpr hv), if_pos hv]

theorem applySection_ok_inv (h : Host) (cfg : File) (d : Defaults) (s : Section)
    (a : IMAPIDOLAccount) (hok : applySection h cfg d s = .ok a) :
    a.Account = s.Name ∧ a.Email = s.Key cfg "email" ∧
    a.Command = getSectionValue cfg s "command" d.Command ∧ a.Command ≠ "" ∧
    a.Folder = getSectionValue cfg s "folder" d.Folder ∧
    a.Server = getSectionValue cfg s "server" d.Server ∧
    Atoi (getSectionValue cfg s "idle_timeout_minutes" d.IdleTimeoutMinutes)
      = .ok a.IdleTimeoutMinutes ∧
    1 ≤ a.IdleTimeoutMinutes ∧ a.IdleTimeoutMinutes ≤ 29 := by
  unfold applySection at hok
  simp only [getSectionValue_empty] at hok
  split at hok
  · cases hok
  · rename_i hcmd
    have hcmd' : getSectionValue cfg s "command" d.Command ≠ "" :=
      fun hc => hcmd (by rw [hc]; rfl)
    split at hok
    · cases hok
    · rename_i n hn
      split at hok
      · cases hok
      · rename_i hpos
        split at hok
        · cases hok
        · rename_i hle
          split at hok
          · split at hok
            · cases hok
            · cases hok
              exact ⟨rfl, rfl, rfl, hcmd', rfl, rfl, hn, by show 1 ≤ n; omega, by show n ≤ 29; omega⟩
          · cases hok
            exact ⟨rfl, rfl, rfl, hcmd', rfl, rfl, hn, by show 1 ≤ n; omega, by show n ≤ 29; omega⟩

theorem applySection_cases (h : Host) (cfg : File) (d : Defaults) (s : Section)
    (hcmd : getSectionValue cfg s "command" d.Command ≠ "") :
    (∀ err, Atoi (getSectionValue cfg s "idle_timeout_minutes" d.IdleTimeoutMinutes)
        = .error err →
      applySection h cfg d s = .error (.badNumber s.Name (s.Key cfg "email")
        (getSectionValue cfg s "idle_timeout_minutes" d.IdleTimeoutMinutes) err)) ∧
    (∀ n, Atoi (getSectionValue cfg s "idle_timeout_minutes" d.IdleTimeoutMinutes) = .ok n →
      n ≤ 0 →
      applySection h cfg d s = .error (.notPositive s.Name (s.Key cfg "email")
        (getSectionValue cfg s "idle_timeout_minutes" d.IdleTimeoutMinutes))) ∧
    (∀ n, Atoi (getSectionValue cfg s "idle_timeout_minutes" d.IdleTimeoutMinutes) = .ok n →
      29 < n →
      applySection h cfg d s = .error (.tooLarge s.Name (s.Key cfg "email")
        (getSectionValue cfg s "idle_timeout_minutes" d.IdleTimeoutMinutes))) ∧
    (∀ n, Atoi (getSectionValue cfg s "idle_timeout_minutes" d.IdleTimeoutMinutes) = .ok n →
      1 ≤ n → n ≤ 29 →
      (s.Key cfg "password_insecure" ≠ "" ∨ (h.Run (passwordCmd h cfg d s)).err = none) →
      ∃ a, applySection h cfg d s = .ok a ∧ a.Account = s.Name ∧ a.IdleTimeoutMinutes = n) := by
  have hlen : ¬ (getSectionValue cfg s "command" d.Command).length = 0 :=
    fun hl => hcmd ((length_eq_zero_iff _).mp hl)
  refine ⟨?_, ?_, ?_, ?_⟩
  · intro err herr
    unfold applySection
    simp only [getSectionValue_empty]
    rw [if_neg hlen, herr]
  · intro n hn hle
    unfold applySection
    simp only [getSectionValue_empty]
    rw [if_neg hlen, hn]
    simp only []
    rw [if_pos hle]
  · intro n hn hgt
    unfold applySection
    simp only [getSectionValue_empty]
    rw [if_neg hlen, hn]
    simp only []
    rw [if_neg (by omega), if_pos (by omega)]
  · intro n hn h1 h29 hpw
    unfold applySection
    simp only [getSectionValue_empty]
    rw [if_neg hlen, hn]
    simp only []
    rw [if_neg (by omega), if_neg (by omega)]
    by_cases hp : (s.Key cfg "password_insecure").length = 0
    · rw [if_pos hp]
      have hrun : (h.Run (passwordCmd h cfg d s)).err = none := by
        rcases hpw with hp' | hrun
        · exact absurd ((length_eq_zero_iff _).mp hp) hp'
        · exact hrun
      simp only [passwordCmd] at hrun
      simp only [shCommand, appendIMAPIDOLAccountEnvironment]
      rw [hrun]
      exact ⟨_, rfl, rfl, rfl⟩
    · rw [if_neg hp]
      exact ⟨_, rfl, rfl, rfl⟩

theorem applySection_ne_noSections (h : Host) (cfg : File) (d : Defaults) (s : Section) :
    applySection h cfg d s ≠ .error .noSections := by
  intro hbad
  unfold applySection at hbad
  simp only [getSectionValue_empty] at hbad
  split at hbad
  · cases hbad
  · split at hbad
    · cases hbad
    · split at hbad
      · cases hbad
      · split at hbad
        · cases hbad
        · split at hbad
          · split at hbad <;> cases hbad
          · cases hbad

theorem accountsOf_cons_default (h : Host) (cfg : File) (d : Defaults) (s : Section)
    (rest : List Section) (hname : s.Name = "DEFAULT") :
    accountsOf h cfg d (s :: rest) = accountsOf h cfg d rest := by
  unfold accountsOf
  rw [List.filterMap_cons]
  simp [hname]

theorem accountsOf_cons_ok (h : Host) (cfg : File) (d : Defaults) (s : Section)
    (rest : List Section) (hname : s.Name ≠ "DEFAULT") (a : IMAPIDOLAccount)
    (ha : applySection h cfg d s = .ok a) :
    accountsOf h cfg d (s :: rest) = a :: accountsOf h cfg d rest := by
  unfold accountsOf
  rw [List.filterMap_cons]
  simp [hname, ha]

theorem applySections_append (h : Host) (cfg : File) (d : Defaults) (pre rest : List Section)
    (ii : List IMAPIDOLAccount) (n : Nat)
    (hpre : ∀ p ∈ pre, p.Name ≠ "DEFAULT" → ∃ a, applySection h cfg d p = .ok a) :
    applySections h cfg d (pre ++ rest) ii n
      = applySections h cfg d rest (ii ++ accountsOf h cfg d pre)
          (n + (accountsOf h cfg d pre).length) := by
  induction pre generalizing ii n with
  | nil => simp [accountsOf]
  | cons p pre ih =>
    have hpre' : ∀ q ∈ pre, q.Name ≠ "DEFAULT" → ∃ a, applySection h cfg d q = .ok a :=
      fun q hq => hpre q (List.mem_cons_of_mem _ hq)
    rw [List.cons_append, applySections]
    by_cases hname : p.Name = "DEFAULT"
    · rw [if_neg (by simpa using hname), ih ii n hpre', accountsOf_cons_default h cfg d p pre hname]
    · obtain ⟨a, ha⟩ := hpre p (List.mem_cons_self _ _) hname
      rw [if_pos hname, ha]
      simp only []
      rw [ih _ _ hpre', accountsOf_cons_ok h cfg d p pre hname a ha]
      simp only [List.append_assoc, List.singleton_append, List.length_cons]
      congr 1
      omega

theorem applySections_spec (h : Host) (cfg : File) (d : Defaults) (secs : List Section)
    (ii : List IMAPIDOLAccount) (n : Nat) :
    ∃ accts, (applySections h cfg d secs ii n).1 = ii ++ accts ∧
      (applySections h cfg d secs ii n).2.1 = n + accts.length ∧
      (∀ a ∈ accts, ∃ s ∈ secs, s.Name ≠ "DEFAULT" ∧ applySection h cfg d s = .ok a) ∧
      ((applySections h cfg d secs ii n).2.2 = none →
        List.Forall₂ (fun s a => applySection h cfg d s = .ok a)
          (secs.filter (fun s => decide (s.Name ≠ "DEFAULT"))) accts) ∧
      (∀ e, (applySections h cfg d secs ii n).2.2 = some e →
        ∃ s ∈ secs, s.Name ≠ "DEFAULT" ∧ applySection h cfg d s = .error e) := by
  induction secs generalizing ii n with
  | nil =>
    exact ⟨[], by simp [applySections], by simp [applySections], by simp,
      by simp [applySections], by simp [applySections]⟩
  | cons s rest ih =>
    by_cases hname : s.Name = "DEFAULT"
    · obtain ⟨accts, h1, h2, h3, h4, h5⟩ := ih ii n
      have heq : applySections h cfg d (s :: rest) ii n = applySections h cfg d rest ii n := by
        rw [applySections, if_neg (by simpa using hname)]
      rw [heq]
      refine ⟨accts, h1, h2, ?_, ?_, ?_⟩
      · intro a ha
        obtain ⟨t, ht, hr⟩ := h3 a ha
        exact ⟨t, List.mem_cons_of_mem _ ht, hr⟩
      · intro hnone
        rw [List.filter_cons_of_neg (by simpa using hname)]
        exact h4 hnone
      · intro e he
        obtain ⟨t, ht, hr⟩ := h5 e he
        exact ⟨t, List.mem_cons_of_mem _ ht, hr⟩
    · cases ha : applySection h cfg d s with
      | error e =>
        have heq : applySections h cfg d (s :: rest) ii n = (ii, n, some e) := by
          rw [applySections, if_pos hname, ha]
        rw [heq]
        refine ⟨[], by simp, by simp, by simp, by simp, ?_⟩
        intro e' he'
        simp only [Option.some.injEq] at he'
        exact ⟨s, List.mem_cons_self _ _, hname, he' ▸ ha⟩
      | ok a =>
        obtain ⟨accts, h1, h2, h3, h4, h5⟩ := ih (ii ++ [a]) (n + 1)
        have heq : applySections h cfg d (s :: rest) ii n
            = applySections h cfg d rest (ii ++ [a]) (n + 1) := by
          rw [applySections, if_pos hname, ha]
        rw [heq]
        refine ⟨a :: accts, by rw [h1]; simp, by rw [h2]; simp; omega, ?_, ?_, ?_⟩
        · intro b hb
          rcases List.mem_cons.mp hb with rfl | hb'
          · exact ⟨s, List.mem_cons_self _ _, hname, ha⟩
          · obtain ⟨t, ht, hr⟩ := h3 b hb'
            exact ⟨t, List.mem_cons_of_mem _ ht, hr⟩
        · intro hnone
          rw [List.filter_cons_of_pos (by simpa using hname)]
          exact List.Forall₂.cons ha (h4 hnone)
        · intro e he
          obtain ⟨t, ht, hr⟩ := h5 e he
          exact ⟨t, List.mem_cons_of_mem _ ht, hr⟩

theorem applySections_all_default (h : Host) (cfg : File) (d : Defaults) (secs : List Section)
    (ii : List IMAPIDOLAccount) (n : Nat) (hall : ∀ s ∈ secs, s.Name = "DEFAULT") :
    applySections h cfg d secs ii n = (ii, n, none) := by
  induction secs with
  | nil => rfl
  | cons s rest ih =>
    rw [applySections, if_neg (by simpa using hall s (List.mem_cons_self _ _))]
    exact ih (fun t ht => hall t (List.mem_cons_of_mem _ ht))

theorem applyConfigWithErr_fst (h : Host) (fl : Flags) (cfg : File)
    (ii : List IMAPIDOLAccount) :
    (applyConfigWithErr h fl cfg ii).1
      = (applySections h cfg (overallDefaults fl cfg) cfg.Sections ii 0).1 := by
  unfold applyConfigWithErr
  simp only []
  split
  · rename_i heq; rw [heq]
  · rename_i heq; rw [heq]; split <;> rfl

theorem applyConfigWithErr_snd (h : Host) (fl : Flags) (cfg : File)
    (ii : List IMAPIDOLAccount) :
    (applyConfigWithErr h fl cfg ii).2
      = match (applySections h cfg (overallDefaults fl cfg) cfg.Sections ii 0).2.2 with
        | some e => some e
        | none =>
          if (applySections h cfg (overallDefaults fl cfg) cfg.Sections ii 0).2.1 = 0
          then some .noSections else none := by
  unfold applyConfigWithErr
  simp only []
  split
  · rename_i heq; rw [heq]
  · rename_i heq; rw [heq]; split <;> simp_all

theorem forall₂_mem_left {α β : Type} (R : α → β → Prop) (l1 : List α) (l2 : List β)
    (hR : List.Forall₂ R l1 l2) : List.Forall₂ (fun x y => x ∈ l1 ∧ R x y) l1 l2 := by
  induction hR with
  | nil => exact List.Forall₂.nil
  | cons hab _ ih =>
    exact List.Forall₂.cons ⟨List.mem_cons_self _ _, hab⟩
      (ih.imp (fun _ _ hxy => ⟨List.mem_cons_of_mem _ hxy.1, hxy.2⟩))

theorem applyConfigWithErr_ok (h : Host) (fl : Flags) (cfg : File)
    (ii : List IMAPIDOLAccount) (hok : (applyConfigWithErr h fl cfg ii).2 = none) :
    ∃ accts, (applyConfigWithErr h fl cfg ii).1 = ii ++ accts ∧ accts ≠ [] ∧
      List.Forall₂
        (fun s a => s ∈ cfg.Sections ∧ s.Name ≠ "DEFAULT" ∧
          applySection h cfg (overallDefaults fl cfg) s = .ok a)
        (cfg.Sections.filter (fun s => decide (s.Name ≠ "DEFAULT"))) accts := by
  obtain ⟨accts, h1, h2, _, h4, _⟩ :=
    applySections_spec h cfg (overallDefaults fl cfg) cfg.Sections ii 0
  rw [applyConfigWithErr_snd] at hok
  cases herr : (applySections h cfg (overallDefaults fl cfg) cfg.Sections ii 0).2.2 with
  | some e => rw [herr] at hok; cases hok
  | none =>
    rw [herr] at hok
    simp only [] at hok
    have hn : ¬ (applySections h cfg (overallDefaults fl cfg) cfg.Sections ii 0).2.1 = 0 := by
      intro h0
      rw [if_pos h0] at hok
      cases hok
    refine ⟨accts, by rw [applyConfigWithErr_fst, h1], ?_, ?_⟩
    · intro hnil
      rw [h2, hnil] at hn
      exact hn rfl
    · refine (forall₂_mem_left _ _ _ (h4 herr)).imp ?_
      intro s a ⟨hmem, hres⟩
      have := List.mem_filter.mp hmem
      exact ⟨this.1, by simpa using this.2, hres⟩

theorem validateSections_none (secs : List Section) (h : validateSections secs = none) :
    ∀ s ∈ secs, validateSection s = none := by
  induction secs with
  | nil => intro s hs; cases hs
  | cons t rest ih =>
    unfold validateSections at h
    cases ht : validateSection t with
    | some e => rw [ht] at h; cases h
    | none =>
      rw [ht] at h
      intro s hs
      rcases List.mem_cons.mp hs with rfl | hmem
      · exact ht
      · exact ih h s hmem

theorem validateSection_none_email (s : Section) (h : validateSection s = none)
    (hname : s.Name ≠ "DEFAULT") : "email" ∈ s.keyNames := by
  unfold validateSection at h
  split at h
  · cases h
  · split at h
    · cases h
    · rename_i hreq
      rw [List.find?_eq_none] at hreq
      have := hreq "email" (by decide)
      rw [← foundIn_iff]
      simpa [hname] using this

theorem getSectionValue_idle (fl : Flags) (cfg : File) (s : Section)
    (hs : noParentIn cfg s) :
    getSectionValue cfg s "idle_timeout_minutes" (overallDefaults fl cfg).IdleTimeoutMinutes
      = effectiveIdleTimeout cfg s := by
  rw [getSectionValue_of_noParent cfg s _ _ hs]
  unfold cascade effectiveIdleTimeout
  rw [overallDefaults_idle]

theorem names_badNumber (quote : String → String) (a e v : String) (err : NumError) :
    (ApplyError.badNumber a e v err).names quote a ∧
    (ApplyError.badNumber a e v err).names quote v := by
  unfold ApplyError.names ApplyError.Error
  exact ⟨⟨"account ".data,
      (" (" ++ e ++ ") has a bad number for idle_timeout_minutes " ++ v ++ ": "
        ++ err.Error quote v).data, by simp [String.data_append, List.append_assoc]⟩,
    ⟨("account " ++ a ++ " (" ++ e ++ ") has a bad number for idle_timeout_minutes ").data,
      (": " ++ err.Error quote v).data, by simp [String.data_append, List.append_assoc]⟩⟩

theorem names_notPositive (quote : String → String) (a e v : String) :
    (ApplyError.notPositive a e v).names quote a ∧
    (ApplyError.notPositive a e v).names quote v := by
  unfold ApplyError.names ApplyError.Error
  exact ⟨⟨"account ".data,
      (" (" ++ e ++ ") has a bad <= 0 number for idle_timeout_minutes " ++ v).data,
      by simp [String.data_append, List.append_assoc]⟩,
    ⟨("account " ++ a ++ " (" ++ e ++ ") has a bad <= 0 number for idle_timeout_minutes ").data,
      [], by simp [String.data_append, List.append_assoc]⟩⟩

theorem names_tooLarge (quote : String → String) (a e v : String) :
    (ApplyError.tooLarge a e v).names quote a ∧
    (ApplyError.tooLarge a e v).names quote v := by
  unfold ApplyError.names ApplyError.Error
  exact ⟨⟨"account ".data,
      (" (" ++ e ++ ") has a bad > 29 number for idle_timeout_minutes " ++ v).data,
      by simp [String.data_append, List.append_assoc]⟩,
    ⟨("account " ++ a ++ " (" ++ e ++ ") has a bad > 29 number for idle_timeout_minutes ").data,
      [], by simp [String.data_append, List.append_assoc]⟩⟩

theorem applySection_refused (h : Host) (fl : Flags) (cfg : File) (s : Section)
    (hs : noParentIn cfg s)
    (hcmd : getSectionValue cfg s "command" (overallDefaults fl cfg).Command ≠ "")
    (hbad : idleTimeoutRefused (effectiveIdleTimeout cfg s) = true) :
    ∃ e, applySection h cfg (overallDefaults fl cfg) s = .error e ∧
      (e = .notPositive s.Name (s.Key cfg "email") (effectiveIdleTimeout cfg s) ∨
       e = .tooLarge s.Name (s.Key cfg "email") (effectiveIdleTimeout cfg s) ∨
       ∃ err, e = .badNumber s.Name (s.Key cfg "email") (effectiveIdleTimeout cfg s) err) ∧
      ∀ quote, e.names quote s.Name ∧ e.names quote (effectiveIdleTimeout cfg s) := by
  obtain ⟨c1, c2, c3, _⟩ := applySection_cases h cfg (overallDefaults fl cfg) s hcmd
  rw [getSectionValue_idle fl cfg s hs] at c1 c2 c3
  unfold idleTimeoutRefused at hbad
  cases hat : Atoi (effectiveIdleTimeout cfg s) with
  | error err =>
    exact ⟨_, c1 err hat, Or.inr (Or.inr ⟨err, rfl⟩), fun q => names_badNumber q _ _ _ _⟩
  | ok n =>
    rw [hat] at hbad
    simp only [Bool.or_eq_true, decide_eq_true_eq] at hbad
    rcases hbad with hle | hgt
    · exact ⟨_, c2 n hat hle, Or.inl rfl, fun q => names_notPositive q _ _ _⟩
    · exact ⟨_, c3 n hat hgt, Or.inr (Or.inl rfl), fun q => names_tooLarge q _ _ _⟩

theorem applyConfigWithErr_isSome_of_error (h : Host) (fl : Flags) (cfg : File)
    (ii : List IMAPIDOLAccount) (s : Section) (e : ApplyError) (hmem : s ∈ cfg.Sections)
    (hname : s.Name ≠ "DEFAULT")
    (he : applySection h cfg (overallDefaults fl cfg) s = .error e) :
    ∃ e', (applyConfigWithErr h fl cfg ii).2 = some e' := by
  obtain ⟨accts, _, _, _, h4, _⟩ :=
    applySections_spec h cfg (overallDefaults fl cfg) cfg.Sections ii 0
  rw [applyConfigWithErr_snd]
  cases hres : (applySections h cfg (overallDefaults fl cfg) cfg.Sections ii 0).2.2 with
  | some e' => exact ⟨e', rfl⟩
  | none =>
    exfalso
    have hf := forall₂_mem_left _ _ _ (h4 hres)
    have hmem' : s ∈ cfg.Sections.filter (fun s => decide (s.Name ≠ "DEFAULT")) :=
      List.mem_filter.mpr ⟨hmem, by simpa using hname⟩
    have key : ∀ (l1 : List Section) (l2 : List IMAPIDOLAccount),
        List.Forall₂ (fun t a => applySection h cfg (overallDefaults fl cfg) t = .ok a) l1 l2 →
        s ∈ l1 → ∃ a, applySection h cfg (overallDefaults fl cfg) s = .ok a := by
      intro l1 l2 hl
      induction hl with
      | nil => intro hm; cases hm
      | cons hab _ ih =>
        intro hm
        rcases List.mem_cons.mp hm with rfl | hm'
        · exact ⟨_, hab⟩
        · exact ih hm'
    obtain ⟨a, ha⟩ := key _ _ (h4 hres) hmem'
    rw [he] at ha
    cases ha

theorem eq_of_name_eq (secs : List Section) (hnd : (secs.map (fun s => s.Name)).Nodup)
    (s t : Section) (hs : s ∈ secs) (ht : t ∈ secs) (hname : t.Name = s.Name) : t = s := by
  induction secs with
  | nil => cases hs
  | cons x xs ih =>
    rw [List.map_cons, List.nodup_cons] at hnd
    rcases List.mem_cons.mp hs with rfl | hs' <;> rcases List.mem_cons.mp ht with rfl | ht'
    · rfl
    · exact absurd (List.mem_map.mpr ⟨t, ht', hname⟩) hnd.1
    · exact absurd (List.mem_map.mpr ⟨s, hs', hname.symm⟩) hnd.1
    · exact ih hnd.2 hs' ht'

theorem applyConfigWithErr_not_added (h : Host) (fl : Flags) (cfg : File)
    (ii accts : List IMAPIDOLAccount) (s : Section) (e : ApplyError)
    (hnd : (cfg.Sections.map (fun s => s.Name)).Nodup) (hmem : s ∈ cfg.Sections)
    (he : applySection h cfg (overallDefaults fl cfg) s = .error e)
    (hres : (applyConfigWithErr h fl cfg ii).1 = ii ++ accts) :
    ∀ a ∈ accts, a.Account ≠ s.Name := by
  obtain ⟨accts', h1, _, h3, _⟩ :=
    applySections_spec h cfg (overallDefaults fl cfg) cfg.Sections ii 0
  rw [applyConfigWithErr_fst, h1] at hres
  have heq : accts' = accts := List.append_cancel_left hres
  intro a ha hacc
  obtain ⟨t, ht, _, hta⟩ := h3 a (heq ▸ ha)
  obtain ⟨hname, _⟩ := applySection_ok_inv h cfg _ t a hta
  have : t = s := eq_of_name_eq cfg.Sections hnd s t hmem ht (hname.symm.trans hacc)
  rw [this, he] at hta
  cases hta

theorem applyConfigWithErr_at_error (h : Host) (fl : Flags) (cfg : File)
    (ii : List IMAPIDOLAccount) (pre post : List Section) (s : Section) (e : ApplyError)
    (hcfg : cfg.Sections = pre ++ s :: post) (hname : s.Name ≠ "DEFAULT")
    (hpre : ∀ p ∈ pre, p.Name ≠ "DEFAULT" →
      ∃ a, applySection h cfg (overallDefaults fl cfg) p = .ok a)
    (he : applySection h cfg (overallDefaults fl cfg) s = .error e) :
    applyConfigWithErr h fl cfg ii
      = (ii ++ accountsOf h cfg (overallDefaults fl cfg) pre, some e) := by
  unfold applyConfigWithErr
  simp only []
  rw [hcfg, applySections_append h cfg _ pre _ ii 0 hpre, applySections, if_pos hname, he]

theorem applyConfigWithErr_at_ok (h : Host) (fl : Flags) (cfg : File)
    (ii : List IMAPIDOLAccount) (pre post : List Section) (s : Section) (a : IMAPIDOLAccount)
    (hcfg : cfg.Sections = pre ++ s :: post) (hname : s.Name ≠ "DEFAULT")
    (hpre : ∀ p ∈ pre, p.Name ≠ "DEFAULT" →
      ∃ a, applySection h cfg (overallDefaults fl cfg) p = .ok a)
    (ha : applySection h cfg (overallDefaults fl cfg) s = .ok a) :
    ∃ more, (applyConfigWithErr h fl cfg ii).1
      = ii ++ accountsOf h cfg (overallDefaults fl cfg) pre ++ a :: more := by
  rw [applyConfigWithErr_fst, hcfg, applySections_append h cfg _ pre _ ii 0 hpre, applySections,
    if_pos hname, ha]
  simp only []
  obtain ⟨accts, h1, _⟩ := applySections_spec h cfg (overallDefaults fl cfg) post
    (ii ++ accountsOf h cfg (overallDefaults fl cfg) pre ++ [a])
    (0 + (accountsOf h cfg (overallDefaults fl cfg) pre).length + 1)
  exact ⟨accts, by rw [h1]; simp⟩

theorem applyConfigWithErr_bounds (h : Host) (fl : Flags) (cfg : File)
    (ii accts : List IMAPIDOLAccount)
    (hres : (applyConfigWithErr h fl cfg ii).1 = ii ++ accts) :
    ∀ a ∈ accts, 1 ≤ a.IdleTimeoutMinutes ∧ a.IdleTimeoutMinutes ≤ 29 := by
  obtain ⟨accts', h1, _, h3, _⟩ :=
    applySections_spec h cfg (overallDefaults fl cfg) cfg.Sections ii 0
  rw [applyConfigWithErr_fst, h1] at hres
  have heq : accts' = accts := List.append_cancel_left hres
  intro a ha
  obtain ⟨s, _, _, hs⟩ := h3 a (heq ▸ ha)
  obtain ⟨_, _, _, _, _, _, _, hlo, hhi⟩ := applySection_ok_inv h cfg _ s a hs
  exact ⟨hlo, hhi⟩

/-! ## Resolution: the claims -/

/-- When no section of the file has a parent section, a resolution without
error appends one account per non-DEFAULT section, in file order, each
setting being the section's own value when not empty and the overall default
otherwise. -/
theorem apply_sections_without_parent (h : Host) (fl : Flags) (cfg : File)
    (ii : List IMAPIDOLAccount) (hnp : ∀ s ∈ cfg.Sections, noParentIn cfg s)
    (hok : (applyConfigWithErr h fl cfg ii).2 = none) :
    ∃ accts, (applyConfigWithErr h fl cfg ii).1 = ii ++ accts ∧
      List.Forall₂
        (fun s a =>
          a.Account = s.Name ∧
          a.Command = cascade s "command" (overallDefaults fl cfg).Command ∧
          a.Folder = cascade s "folder" (overallDefaults fl cfg).Folder ∧
          a.Server = cascade s "server" (overallDefaults fl cfg).Server ∧
          Atoi (cascade s "idle_timeout_minutes" (overallDefaults fl cfg).IdleTimeoutMinutes)
            = .ok a.IdleTimeoutMinutes)
        (cfg.Sections.filter (fun s => decide (s.Name ≠ "DEFAULT"))) accts := by
  obtain ⟨accts, h1, _, h3⟩ := applyConfigWithErr_ok h fl cfg ii hok
  refine ⟨accts, h1, h3.imp ?_⟩
  intro s a ⟨hmem, _, hres⟩
  obtain ⟨ha, _, hc, _, hf, hs, ht, _, _⟩ := applySection_ok_inv h cfg _ s a hres
  have hn := hnp s hmem
  rw [getSectionValue_of_noParent cfg s _ _ hn] at hc hf hs ht
  exact ⟨ha, hc, hf, hs, ht⟩

/-- C6 fails on the code for a section with a parent section. The
configuration `DEFAULT` (empty), `a` (email, password, `command = parent-cmd`,
`folder = ParentFolder`, `idle_timeout_minutes = 5`), `a.b` (email and
password only) passes validation and resolves, with no flag, to two accounts;
the account `a.b` has the command, folder and idle timeout of `a`, which are
neither values of the section `a.b` (it sets none of them) nor the overall
defaults (no command, `INBOX`, `15`). The end-to-end example of the claim,
which has no such section, resolves as the claim says. -/
theorem apply_child_section_takes_parent_values :
    validateConfigWithErr ⟨[exDefault, exParent, exChild]⟩ = none ∧
    applyConfigWithErr exHost noFlags ⟨[exDefault, exParent, exChild]⟩ []
      = ([{ Account := "a", Command := "parent-cmd", Email := "a@example.com",
            Folder := "ParentFolder", PasswordCommand := "", PasswordInsecure := "x",
            Server := "imap.gmail.com:993", IdleTimeoutMinutes := 5 },
          { Account := "a.b", Command := "parent-cmd", Email := "b@example.com",
            Folder := "ParentFolder", PasswordCommand := "", PasswordInsecure := "y",
            Server := "imap.gmail.com:993", IdleTimeoutMinutes := 5 }], none) ∧
    (exChild.own "command" = "" ∧ exChild.own "folder" = "" ∧
      exChild.own "idle_timeout_minutes" = "") ∧
    overallDefaults noFlags ⟨[exDefault, exParent, exChild]⟩
      = { Server := "imap.gmail.com:993", Folder := "INBOX", Command := "",
          IdleTimeoutMinutes := "15" } ∧
    applyConfigWithErr exHost noFlags ⟨[exDefaultServer, exAccount]⟩ []
      = ([{ Account := "a", Command := "notify-send hi", Email := "a@example.com",
            Folder := "INBOX", PasswordCommand := "", PasswordInsecure := "x",
            Server := "mail.example.com:993", IdleTimeoutMinutes := 10 }], none) := by
  decide

/-- C7. A configuration without a non-DEFAULT section makes
`applyConfigWithErr` return the error `There are no sections to work on` and
leaves the list as it was, for every host, every flag and every content of
the DEFAULT section; that error is returned in no other case; and when no
error is returned at least one account has been appended. -/
theorem apply_no_sections (h : Host) (fl : Flags) (cfg : File) (ii : List IMAPIDOLAccount) :
    ((∀ s ∈ cfg.Sections, s.Name = "DEFAULT") →
      applyConfigWithErr h fl cfg ii = (ii, some .noSections)) ∧
    ((applyConfigWithErr h fl cfg ii).2 = some .noSections →
      ∀ s ∈ cfg.Sections, s.Name = "DEFAULT") ∧
    ((applyConfigWithErr h fl cfg ii).2 = none →
      ∃ a accts, (applyConfigWithErr h fl cfg ii).1 = ii ++ a :: accts) := by
  refine ⟨?_, ?_, ?_⟩
  · intro hall
    unfold applyConfigWithErr
    simp only []
    rw [applySections_all_default h cfg _ cfg.Sections ii 0 hall]
    simp
  · intro herr s hs
    obtain ⟨accts, _, h2, _, h4, h5⟩ :=
      applySections_spec h cfg (overallDefaults fl cfg) cfg.Sections ii 0
    rw [applyConfigWithErr_snd] at herr
    cases hres : (applySections h cfg (overallDefaults fl cfg) cfg.Sections ii 0).2.2 with
    | some e =>
      rw [hres] at herr
      simp only [Option.some.injEq] at herr
      obtain ⟨t, _, _, ht⟩ := h5 e hres
      rw [herr] at ht
      exact absurd ht (applySection_ne_noSections h cfg _ t)
    | none =>
      rw [hres] at herr
      simp only [] at herr
      by_cases h0 : (applySections h cfg (overallDefaults fl cfg) cfg.Sections ii 0).2.1 = 0
      · rw [h2] at h0
        have hnil : accts = [] := List.length_eq_zero.mp (by omega)
        have hf := h4 hres
        rw [hnil] at hf
        have hfilter := List.forall₂_nil_right_iff.mp hf
        by_contra hname
        have : s ∈ cfg.Sections.filter (fun s => decide (s.Name ≠ "DEFAULT")) :=
          List.mem_filter.mpr ⟨hs, by simpa using hname⟩
        rw [hfilter] at this
        cases this
      · rw [if_neg h0] at herr
        cases herr
  · intro hok
    obtain ⟨accts, h1, hne, _⟩ := applyConfigWithErr_ok h fl cfg ii hok
    cases accts with
    | nil => exact absurd rfl hne
    | cons a rest => exact ⟨a, rest, h1⟩

/-- Witness for C7: a configuration with only a DEFAULT section, whose idle
timeout is not a number and which sets no command, gives the no-sections
error and no account, also with a `-command` flag; the end-to-end example
gives an account. -/
theorem apply_no_sections_witness :
    applyConfigWithErr exFailingHost ⟨"", "", "notify-send"⟩
      ⟨[⟨"DEFAULT", [.plain "idle_timeout_minutes" "soon"]⟩]⟩ [] = ([], some .noSections) ∧
    (∃ a accts, (applyConfigWithErr exHost noFlags ⟨[exDefaultServer, exAccount]⟩ []).1
      = [] ++ a :: accts) :=
  ⟨(apply_no_sections exFailingHost ⟨"", "", "notify-send"⟩
      ⟨[⟨"DEFAULT", [.plain "idle_timeout_minutes" "soon"]⟩]⟩ []).1 (by decide),
   (apply_no_sections exHost noFlags ⟨[exDefaultServer, exAccount]⟩ []).2.2 (by decide)⟩

/-- C8, as stated, fails: the configuration `DEFAULT`, `work` with `email =`
(an empty value), a password and a command passes validation and resolves,
and the resolved account has the empty email. -/
theorem resolved_email_may_be_empty :
    ¬ (∀ (h : Host) (fl : Flags) (cfg : File), validateConfigWithErr cfg = none →
        (applyConfigWithErr h fl cfg []).2 = none →
        ∀ a ∈ (applyConfigWithErr h fl cfg []).1, a.Email ≠ "") := by
  intro hall
  have hval : validateConfigWithErr ⟨[exDefault, exEmptyEmail]⟩ = none := by decide
  have hres : applyConfigWithErr exHost noFlags ⟨[exDefault, exEmptyEmail]⟩ []
      = ([{ Account := "work", Command := "notify-send hi", Email := "", Folder := "INBOX",
            PasswordCommand := "", PasswordInsecure := "hunter2",
            Server := "imap.gmail.com:993", IdleTimeoutMinutes := 15 }], none) := by decide
  have := hall exHost noFlags ⟨[exDefault, exEmptyEmail]⟩ hval (by rw [hres])
    { Account := "work", Command := "notify-send hi", Email := "", Folder := "INBOX",
      PasswordCommand := "", PasswordInsecure := "hunter2",
      Server := "imap.gmail.com:993", IdleTimeoutMinutes := 15 } (by rw [hres]; simp)
  exact this rfl

/-- C8, amended. For a configuration that validation accepts and that
resolves without error, every resolved account comes from a section that has
the key `email`, and the account's email is the value of that key of the
section: it is not empty exactly when that value is not empty. -/
theorem resolved_email_is_section_value (h : Host) (fl : Flags) (cfg : File)
    (ii : List IMAPIDOLAccount) (hval : validateConfigWithErr cfg = none)
    (hok : (applyConfigWithErr h fl cfg ii).2 = none) :
    ∃ accts, (applyConfigWithErr h fl cfg ii).1 = ii ++ accts ∧
      List.Forall₂
        (fun s a => "email" ∈ s.keyNames ∧ a.Email = s.own "email" ∧
          (a.Email ≠ "" ↔ s.own "email" ≠ ""))
        (cfg.Sections.filter (fun s => decide (s.Name ≠ "DEFAULT"))) accts := by
  obtain ⟨accts, h1, _, h3⟩ := applyConfigWithErr_ok h fl cfg ii hok
  refine ⟨accts, h1, h3.imp ?_⟩
  intro s a ⟨hmem, hname, hres⟩
  obtain ⟨_, he, _⟩ := applySection_ok_inv h cfg _ s a hres
  have hkey := validateSection_none_email s (validateSections_none _ hval s hmem) hname
  rw [key_eq_own_of_mem cfg s "email" hkey] at he
  exact ⟨hkey, he, by rw [he]⟩

/-- Witness for C8 amended: the end-to-end example. -/
theorem resolved_email_is_section_value_witness :
    ∃ accts, (applyConfigWithErr exHost noFlags ⟨[exDefaultServer, exAccount]⟩ []).1
        = [] ++ accts ∧
      List.Forall₂
        (fun s a => "email" ∈ s.keyNames ∧ a.Email = s.own "email" ∧
          (a.Email ≠ "" ↔ s.own "email" ≠ ""))
        ((File.mk [exDefaultServer, exAccount]).Sections.filter
          (fun s => decide (s.Name ≠ "DEFAULT"))) accts :=
  resolved_email_is_section_value exHost noFlags ⟨[exDefaultServer, exAccount]⟩ []
    (by decide) (by decide)

/-- C5, as stated, fails, in each of its parts. (1) In the configuration
`DEFAULT` (with a command), `home` (idle timeout `0`), `work` (idle timeout
`45`), the section `work` has the refused idle timeout `45`, but the error
returned is the one of `home`, and its message contains neither `work` nor
`45`. (2) With `home` at `0` and `work` at `29`, `work` is not accepted,
although its password is given in the section. (3) An only account section
with the idle timeout `29` and a password command is not accepted when the
command fails. (4) With `45` in the DEFAULT section and the sections `a`
(idle timeout `5`) and `a.b` (none), the string the claim computes for `a.b`
is `45`, and no error is returned. -/
theorem idle_timeout_law_fails :
    (¬ ∃ quote : String → String,
      ∀ (h : Host) (fl : Flags) (cfg : File) (ii : List IMAPIDOLAccount) (s : Section),
        s ∈ cfg.Sections → s.Name ≠ "DEFAULT" →
        getSectionValue cfg s "command" (overallDefaults fl cfg).Command ≠ "" →
        idleTimeoutRefused (effectiveIdleTimeout cfg s) = true →
        ∃ e, (applyConfigWithErr h fl cfg ii).2 = some e ∧
          e.names quote s.Name ∧ e.names quote (effectiveIdleTimeout cfg s)) ∧
    (¬ ∀ (h : Host) (fl : Flags) (cfg : File) (ii : List IMAPIDOLAccount) (s : Section)
        (n : Int), s ∈ cfg.Sections → s.Name ≠ "DEFAULT" →
        getSectionValue cfg s "command" (overallDefaults fl cfg).Command ≠ "" →
        s.own "password_insecure" ≠ "" →
        Atoi (effectiveIdleTimeout cfg s) = .ok n → 1 ≤ n → n ≤ 29 →
        ∃ a ∈ (applyConfigWithErr h fl cfg ii).1,
          a.Account = s.Name ∧ a.IdleTimeoutMinutes = n) ∧
    (¬ ∀ (h : Host) (fl : Flags) (cfg : File) (ii : List IMAPIDOLAccount) (s : Section)
        (n : Int) (post : List Section), cfg.Sections = exDefaultCommand :: s :: post →
        s.Name ≠ "DEFAULT" →
        getSectionValue cfg s "command" (overallDefaults fl cfg).Command ≠ "" →
        Atoi (effectiveIdleTimeout cfg s) = .ok n → 1 ≤ n → n ≤ 29 →
        ∃ a ∈ (applyConfigWithErr h fl cfg ii).1,
          a.Account = s.Name ∧ a.IdleTimeoutMinutes = n) ∧
    (¬ ∀ (h : Host) (fl : Flags) (cfg : File) (ii : List IMAPIDOLAccount) (s : Section),
        s ∈ cfg.Sections → s.Name ≠ "DEFAULT" →
        getSectionValue cfg s "command" (overallDefaults fl cfg).Command ≠ "" →
        idleTimeoutRefused (effectiveIdleTimeout cfg s) = true →
        ∃ e, (applyConfigWithErr h fl cfg ii).2 = some e) := by
  refine ⟨?_, ?_, ?_, ?_⟩
  · rintro ⟨quote, hall⟩
    obtain ⟨e, he, hn, _⟩ := hall exHost noFlags
      ⟨[exDefaultCommand, exTimeout "home" "0", exTimeout "work" "45"]⟩ []
      (exTimeout "work" "45") (by decide) (by decide) (by decide) (by decide)
    have hres : applyConfigWithErr exHost noFlags
        ⟨[exDefaultCommand, exTimeout "home" "0", exTimeout "work" "45"]⟩ []
        = ([], some (.notPositive "home" "user@example.com" "0")) := by decide
    rw [hres] at he
    cases he
    revert hn
    simp only [ApplyError.names, ApplyError.Error]
    decide
  · intro hall
    obtain ⟨a, ha, _⟩ := hall exHost noFlags
      ⟨[exDefaultCommand, exTimeout "home" "0", exTimeout "work" "29"]⟩ []
      (exTimeout "work" "29") 29 (by decide) (by decide) (by decide) (by decide) (by decide)
      (by decide) (by decide)
    have hres : applyConfigWithErr exHost noFlags
        ⟨[exDefaultCommand, exTimeout "home" "0", exTimeout "work" "29"]⟩ []
        = ([], some (.notPositive "home" "user@example.com" "0")) := by decide
    rw [hres] at ha
    cases ha
  · intro hall
    obtain ⟨a, ha, _⟩ := hall exFailingHost noFlags
      ⟨[exDefaultCommand, exPasswordCommand]⟩ [] exPasswordCommand 29 [] rfl (by decide)
      (by decide) (by decide) (by decide) (by decide)
    have hres : applyConfigWithErr exFailingHost noFlags
        ⟨[exDefaultCommand, exPasswordCommand]⟩ []
        = ([], some (.passwordCommand "work" "pass work" "exit status 1" "no")) := by decide
    rw [hres] at ha
    cases ha
  · intro hall
    obtain ⟨e, he⟩ := hall exHost noFlags ⟨[exDefault45, exParent, exChild]⟩ [] exChild
      (by decide) (by decide) (by decide) (by decide)
    have hres : (applyConfigWithErr exHost noFlags
        ⟨[exDefault45, exParent, exChild]⟩ []).2 = none := by decide
    rw [hres] at he
    cases he

/-- C5, amended. Take an account section that has no parent section in the
file and has a non-empty resolved command, and its effective idle-timeout
string (its own `idle_timeout_minutes`, else the DEFAULT section's, else
`15`). If the string is refused (not a number, at most 0, or greater than
29), `applyConfigWithErr` returns an error and, section names being unique,
appends no account of that name; when all account sections before it resolve
without error, the error is the one of that section, its message contains
the section's name and the string, and the list holds the accounts of the
earlier sections only. If the string reads as a number from 1 to 29, all
account sections before it resolve without error, and the password is given
in the section or its password command succeeds, the account is appended
with that number of minutes. Every account appended has an idle timeout from
1 to 29. -/
theorem apply_idle_timeout_law (h : Host) (fl : Flags) (cfg : File)
    (ii : List IMAPIDOLAccount) (s : Section)
    (hmem : s ∈ cfg.Sections) (hname : s.Name ≠ "DEFAULT") (hnp : noParentIn cfg s)
    (hcmd : getSectionValue cfg s "command" (overallDefaults fl cfg).Command ≠ "") :
    (idleTimeoutRefused (effectiveIdleTimeout cfg s) = true →
      (∃ e, (applyConfigWithErr h fl cfg ii).2 = some e) ∧
      ((cfg.Sections.map (fun t => t.Name)).Nodup →
        ∀ accts, (applyConfigWithErr h fl cfg ii).1 = ii ++ accts →
          ∀ a ∈ accts, a.Account ≠ s.Name) ∧
      (∀ pre post, cfg.Sections = pre ++ s :: post →
        (∀ p ∈ pre, p.Name ≠ "DEFAULT" →
          ∃ a, applySection h cfg (overallDefaults fl cfg) p = .ok a) →
        ∃ e, applyConfigWithErr h fl cfg ii
            = (ii ++ accountsOf h cfg (overallDefaults fl cfg) pre, some e) ∧
          (e = .notPositive s.Name (s.own "email") (effectiveIdleTimeout cfg s) ∨
           e = .tooLarge s.Name (s.own "email") (effectiveIdleTimeout cfg s) ∨
           ∃ err, e = .badNumber s.Name (s.own "email") (effectiveIdleTimeout cfg s) err) ∧
          ∀ quote, e.names quote s.Name ∧ e.names quote (effectiveIdleTimeout cfg s))) ∧
    (∀ n, Atoi (effectiveIdleTimeout cfg s) = .ok n → 1 ≤ n → n ≤ 29 →
      (s.own "password_insecure" ≠ "" ∨
        (h.Run (passwordCmd h cfg (overallDefaults fl cfg) s)).err = none) →
      ∀ pre post, cfg.Sections = pre ++ s :: post →
        (∀ p ∈ pre, p.Name ≠ "DEFAULT" →
          ∃ a, applySection h cfg (overallDefaults fl cfg) p = .ok a) →
        ∃ a more, a.Account = s.Name ∧ a.IdleTimeoutMinutes = n ∧
          (applyConfigWithErr h fl cfg ii).1
            = ii ++ accountsOf h cfg (overallDefaults fl cfg) pre ++ a :: more) ∧
    (∀ accts, (applyConfigWithErr h fl cfg ii).1 = ii ++ accts →
      ∀ a ∈ accts, 1 ≤ a.IdleTimeoutMinutes ∧ a.IdleTimeoutMinutes ≤ 29) := by
  refine ⟨?_, ?_, ?_⟩
  · intro hbad
    obtain ⟨e, he, hshape, hnames⟩ := applySection_refused h fl cfg s hnp hcmd hbad
    rw [key_eq_own_of_noParent cfg s "email" hnp] at hshape
    refine ⟨applyConfigWithErr_isSome_of_error h fl cfg ii s e hmem hname he, ?_, ?_⟩
    · intro hnd accts hres
      exact applyConfigWithErr_not_added h fl cfg ii accts s e hnd hmem he hres
    · intro pre post hcfg hpre
      exact ⟨e, applyConfigWithErr_at_error h fl cfg ii pre post s e hcfg hname hpre he,
        hshape, hnames⟩
  · intro n hn h1 h29 hpw pre post hcfg hpre
    obtain ⟨_, _, _, c4⟩ := applySection_cases h cfg (overallDefaults fl cfg) s hcmd
    rw [getSectionValue_idle fl cfg s hnp, key_eq_own_of_noParent cfg s _ hnp] at c4
    obtain ⟨a, ha, hacc, hidle⟩ := c4 n hn h1 h29 hpw
    obtain ⟨more, hmore⟩ :=
      applyConfigWithErr_at_ok h fl cfg ii pre post s a hcfg hname hpre ha
    exact ⟨a, more, hacc, hidle, hmore⟩
  · intro accts hres
    exact applyConfigWithErr_bounds h fl cfg ii accts hres

/-- Witness for C5 amended: in the configuration `DEFAULT` (with a command),
`home` (idle timeout `29`), `work` (idle timeout `45`), the section `home` is
appended with 29 minutes and the section `work` makes the function return
the error naming `work` and `45`, the list holding `home` only. The strings
`0`, `-3`, `30`, `45` and `soon` are refused, `1` and `29` are not. -/
theorem apply_idle_timeout_law_witness :
    (∃ e, applyConfigWithErr exHost noFlags
        ⟨[exDefaultCommand, exTimeout "home" "29", exTimeout "work" "45"]⟩ []
        = ([] ++ accountsOf exHost
            ⟨[exDefaultCommand, exTimeout "home" "29", exTimeout "work" "45"]⟩
            (overallDefaults noFlags
              ⟨[exDefaultCommand, exTimeout "home" "29", exTimeout "work" "45"]⟩)
            [exDefaultCommand, exTimeout "home" "29"], some e) ∧
        ∀ quote, e.names quote "work" ∧ e.names quote "45") ∧
    (∃ e, (applyConfigWithErr exHost noFlags
        ⟨[exDefaultCommand, exTimeout "home" "29", exTimeout "work" "45"]⟩ []).2 = some e) ∧
    applyConfigWithErr exHost noFlags
        ⟨[exDefaultCommand, exTimeout "home" "29", exTimeout "work" "45"]⟩ []
      = ([{ Account := "home", Command := "notify-send mail", Email := "user@example.com",
            Folder := "INBOX", PasswordCommand := "", PasswordInsecure := "hunter2",
            Server := "imap.gmail.com:993", IdleTimeoutMinutes := 29 }],
         some (.tooLarge "work" "user@example.com" "45")) ∧
    (∃ a more, a.Account = "home" ∧ a.IdleTimeoutMinutes = 29 ∧
      (applyConfigWithErr exHost noFlags
        ⟨[exDefaultCommand, exTimeout "home" "29", exTimeout "work" "45"]⟩ []).1
        = [] ++ accountsOf exHost
            ⟨[exDefaultCommand, exTimeout "home" "29", exTimeout "work" "45"]⟩
            (overallDefaults noFlags
              ⟨[exDefaultCommand, exTimeout "home" "29", exTimeout "work" "45"]⟩)
            [exDefaultCommand] ++ a :: more) ∧
    (idleTimeoutRefused "0" = true ∧ idleTimeoutRefused "-3" = true ∧
     idleTimeoutRefused "30" = true ∧ idleTimeoutRefused "45" = true ∧
     idleTimeoutRefused "soon" = true ∧ idleTimeoutRefused "1" = false ∧
     idleTimeoutRefused "29" = false) := by
  refine ⟨?_, ?_, by decide, ?_, by decide⟩
  · obtain ⟨e, he, _, hn⟩ := ((apply_idle_timeout_law exHost noFlags
      ⟨[exDefaultCommand, exTimeout "home" "29", exTimeout "work" "45"]⟩ []
      (exTimeout "work" "45") (by decide) (by decide) (by decide) (by decide)).1
      (by decide)).2.2 [exDefaultCommand, exTimeout "home" "29"] [] rfl
      (by
        intro p hp hn
        simp only [List.mem_cons, List.mem_singleton, List.not_mem_nil, or_false] at hp
        rcases hp with rfl | rfl
        · exact absurd rfl hn
        · exact ⟨⟨"home", "notify-send mail", "user@example.com", "INBOX", "", "hunter2",
            "imap.gmail.com:993", 29⟩, by decide⟩)
    exact ⟨e, he, hn⟩
  · exact ((apply_idle_timeout_law exHost noFlags
      ⟨[exDefaultCommand, exTimeout "home" "29", exTimeout "work" "45"]⟩ []
      (exTimeout "work" "45") (by decide) (by decide) (by decide) (by decide)).1
      (by decide)).1
  · exact (apply_idle_timeout_law exHost noFlags
      ⟨[exDefaultCommand, exTimeout "home" "29", exTimeout "work" "45"]⟩ []
      (exTimeout "home" "29") (by decide) (by decide) (by decide) (by decide)).2.1 29
      (by decide) (by decide) (by decide) (Or.inl (by decide))
      [exDefaultCommand] [exTimeout "work" "45"] rfl
      (by
        intro p hp hn
        simp only [List.mem_singleton] at hp
        subst hp
        exact absurd rfl hn)

/-! ## The event loop -/

theorem handleUpdate_notified (environ : List String) (account : IMAPIDOLAccount)
    (st : Session) (u : Update) (r : RunResult)
    (hinv : st.notified = notificationsFor environ account st.received) :
    (handleUpdate environ account st u r).notified
      = notificationsFor environ account (handleUpdate environ account st u r).received := by
  unfold handleUpdate
  cases u with
  | MailboxUpdate m =>
    simp only []
    split <;> simp [notificationsFor, hinv, Update.isMailboxUpdate]
  | Other k p =>
    simp [notificationsFor, hinv, Update.isMailboxUpdate]

theorem handleUpdate_received (environ : List String) (account : IMAPIDOLAccount)
    (st : Session) (u : Update) (r : RunResult) :
    (handleUpdate environ account st u r).received = st.received ++ [u] ∧
    (handleUpdate environ account st u r).wait = .polling ∧
    (handleUpdate environ account st u r).pending = st.pending := by
  unfold handleUpdate
  cases u with
  | MailboxUpdate m =>
    simp only []
    split <;> exact ⟨rfl, rfl, rfl⟩
  | Other k p => exact ⟨rfl, rfl, rfl⟩

theorem handleDone_fields (st : Session) (err : Option String) :
    (handleDone st err).received = st.received ∧ (handleDone st err).wait = st.wait ∧
    (handleDone st err).pending = st.pending ∧ (handleDone st err).notified = st.notified := by
  unfold handleDone
  cases err <;> exact ⟨rfl, rfl, rfl, rfl⟩

theorem step_notified (environ : List String) (account : IMAPIDOLAccount)
    (st st' : Session) (a : Action) (h : step environ account st a = some st')
    (hinv : st.notified = notificationsFor environ account st.received) :
    st'.notified = notificationsFor environ account st'.received := by
  cases a with
  | closeShutdown =>
    simp only [step] at h
    split at h
    · cases h
    · split at h <;> (cases h; exact hinv)
  | offerUpdate u =>
    simp only [step] at h
    split at h
    · cases h
    · split at h <;> (cases h; exact hinv)
  | idleReturns err =>
    simp only [step] at h
    split at h
    · cases h
    · split at h <;> (cases h; exact hinv)
  | park =>
    simp only [step] at h
    split at h
    · cases h; exact hinv
    · cases h
  | selectShutdown =>
    simp only [step] at h
    split at h
    · cases h; exact hinv
    · cases h
  | selectUpdate r =>
    simp only [step] at h
    split at h
    · split at h
      · split at h
        · cases h
        · cases h
          exact handleUpdate_notified environ account _ _ r hinv
      · cases h
        exact handleUpdate_notified environ account _ _ r hinv
      · cases h
    · cases h
  | selectDone =>
    simp only [step] at h
    split at h
    · split at h
      · split at h
        · cases h
        · cases h
          rw [(handleDone_fields _ _).2.2.2, (handleDone_fields _ _).1]
          exact hinv
      · cases h
        rw [(handleDone_fields _ _).2.2.2, (handleDone_fields _ _).1]
        exact hinv
      · cases h
    · cases h

theorem isParked_wait (st : Session) (h : st.isParked = true) : st.wait = .parked := by
  unfold Session.isParked at h
  simp only [Bool.and_eq_true, decide_eq_true_eq] at h
  exact h.2

theorem step_received (environ : List String) (account : IMAPIDOLAccount)
    (st st' : Session) (a : Action) (h : step environ account st a = some st') :
    st'.received ++ st'.inFlight = st.received ++ st.inFlight ++ offered [a] := by
  cases a with
  | closeShutdown =>
    simp only [step] at h
    split at h
    · cases h
    · split at h
      · rename_i hp
        cases h
        simp [offered, Session.inFlight, isParked_wait st hp]
      · cases h
        simp [offered, Session.inFlight]
  | offerUpdate u =>
    simp only [step] at h
    split at h
    · cases h
    · rename_i hpend
      split at h
      · rename_i hp
        cases h
        simp [offered, Session.inFlight, isParked_wait st hp, hpend]
      · cases h
        simp [offered, Session.inFlight, hpend]
  | idleReturns err =>
    simp only [step] at h
    split at h
    · cases h
    · split at h
      · rename_i hp
        cases h
        simp [offered, Session.inFlight, isParked_wait st hp]
      · cases h
        simp [offered, Session.inFlight]
  | park =>
    simp only [step] at h
    split at h
    · rename_i hc
      cases h
      simp [offered, Session.inFlight, hc.2.1]
    · cases h
  | selectShutdown =>
    simp only [step] at h
    split at h
    · cases h; simp [offered, Session.inFlight]
    · cases h
  | selectUpdate r =>
    simp only [step] at h
    split at h
    · split at h
      · rename_i hwait
        split at h
        · cases h
        · rename_i u hpend
          cases h
          obtain ⟨h1, h2, h3⟩ := handleUpdate_received environ account
            { st with pending := none } u r
          simp only [Session.inFlight, h1, h2, h3]
          simp [offered, hwait, hpend]
      · rename_i u hwait
        cases h
        obtain ⟨h1, h2, h3⟩ := handleUpdate_received environ account st u r
        simp only [Session.inFlight, h1, h2, h3]
        simp [offered, hwait]
      · cases h
    · cases h
  | selectDone =>
    simp only [step] at h
    split at h
    · split at h
      · rename_i hwait
        split at h
        · cases h
        · cases h
          obtain ⟨h1, h2, h3, _⟩ := handleDone_fields { st with done := none } ‹_›
          simp [Session.inFlight, h1, h2, h3, offered]
      · rename_i err hwait
        cases h
        obtain ⟨h1, h2, h3, _⟩ := handleDone_fields st err
        simp [Session.inFlight, h1, h2, h3, offered]
      · cases h
    · cases h

theorem offered_cons (a : Action) (rest : List Action) :
    offered (a :: rest) = offered [a] ++ offered rest := by
  cases a <;> simp [offered]

theorem run_invariants (environ : List String) (account : IMAPIDOLAccount)
    (acts : List Action) (st st' : Session) (h : run environ account st acts = some st')
    (hinv : st.notified = notificationsFor environ account st.received) :
    st'.notified = notificationsFor environ account st'.received ∧
    st'.received ++ st'.inFlight = st.received ++ st.inFlight ++ offered acts := by
  induction acts generalizing st with
  | nil =>
    simp only [run, Option.some.injEq] at h
    subst h
    exact ⟨hinv, by simp [offered]⟩
  | cons a rest ih =>
    simp only [run] at h
    cases hs : step environ account st a with
    | none => rw [hs] at h; cases h
    | some st1 =>
      rw [hs] at h
      obtain ⟨h1, h2⟩ := ih st1 h (step_notified environ account st st1 a hs hinv)
      refine ⟨h1, ?_⟩
      rw [h2, step_received environ account st st1 a hs, offered_cons a rest]
      simp

theorem step_committed (environ : List String) (account : IMAPIDOLAccount)
    (st st' : Session) (a : Action) (h : step environ account st a = some st')
    (hk : st.committed) :
    st'.committed ∧ st'.notified = st.notified ∧ st'.received = st.received ∧
    (a.isSelect = true →
      a = .selectShutdown ∧ st.phase = .Watching ∧ st'.phase = .Terminated) ∧
    (a.isSelect = false → st'.phase = st.phase) := by
  obtain ⟨hwait, hclosed, hphase⟩ := hk
  have hnp : st.isParked = false := by
    unfold Session.isParked
    rw [hwait]
    simp
  cases a with
  | closeShutdown =>
    simp only [step, hclosed, if_true] at h
    cases h
  | offerUpdate u =>
    simp only [step, hnp] at h
    split at h
    · cases h
    · cases h
      exact ⟨⟨hwait, hclosed, hphase⟩, rfl, rfl, fun hs => (by cases hs), fun _ => rfl⟩
  | idleReturns err =>
    simp only [step, hnp] at h
    split at h
    · cases h
    · cases h
      exact ⟨⟨hwait, hclosed, hphase⟩, rfl, rfl, fun hs => (by cases hs), fun _ => rfl⟩
  | park =>
    simp only [step, hwait] at h
    simp at h
  | selectShutdown =>
    simp only [step] at h
    split at h
    · rename_i hc
      cases h
      exact ⟨⟨hwait, hclosed, Or.inr rfl⟩, rfl, rfl, fun _ => ⟨rfl, hc.1, rfl⟩,
        fun hs => by cases hs⟩
    · cases h
  | selectUpdate r =>
    simp only [step, hwait] at h
    split at h <;> cases h
  | selectDone =>
    simp only [step, hwait] at h
    split at h <;> cases h

theorem run_committed (environ : List String) (account : IMAPIDOLAccount)
    (acts : List Action) (st st' : Session) (h : run environ account st acts = some st')
    (hk : st.committed) :
    st'.committed ∧ st'.notified = st.notified ∧ st'.received = st.received ∧
    (st.phase = .Terminated → st'.phase = .Terminated) ∧
    ((∃ a ∈ acts, a.isSelect = true) → st'.phase = .Terminated) := by
  induction acts generalizing st with
  | nil =>
    simp only [run, Option.some.injEq] at h
    subst h
    exact ⟨hk, rfl, rfl, fun ht => ht, fun ⟨a, ha, _⟩ => by cases ha⟩
  | cons a rest ih =>
    simp only [run] at h
    cases hs : step environ account st a with
    | none => rw [hs] at h; cases h
    | some st1 =>
      rw [hs] at h
      obtain ⟨k1, n1, r1, s1, e1⟩ := step_committed environ account st st1 a hs hk
      obtain ⟨k2, n2, r2, t2, s2⟩ := ih st1 h k1
      refine ⟨k2, n2.trans n1, r2.trans r1, ?_, ?_⟩
      · intro hterm
        cases hsel : a.isSelect with
        | true =>
          have := (s1 hsel).2.1
          rw [hterm] at this
          cases this
        | false => exact t2 ((e1 hsel).trans hterm)
      · rintro ⟨b, hb, hbsel⟩
        cases hsel : a.isSelect with
        | true => exact t2 (s1 hsel).2.2
        | false =>
          rcases List.mem_cons.mp hb with rfl | hb'
          · rw [hsel] at hbsel
            cases hbsel
          · exact s2 ⟨b, hb', hbsel⟩

theorem step_closeShutdown_parked (environ : List String) (account : IMAPIDOLAccount)
    (st st1 : Session) (hw : st.phase = .Watching) (hp : st.wait = .parked)
    (h : step environ account st .closeShutdown = some st1) :
    st1.committed ∧ st1.phase = .Watching ∧ st1.notified = st.notified ∧
    st1.received = st.received := by
  have hpark : st.isParked = true := by
    unfold Session.isParked
    rw [hw, hp]
    rfl
  simp only [step, hpark, if_true] at h
  split at h
  · cases h
  · cases h
    exact ⟨⟨rfl, rfl, Or.inl hw⟩, hw, rfl, rfl⟩

/-- C9. In every run of the loop from its entry, the notification command
has been run exactly once for each `*client.MailboxUpdate` received on the
`updates` channel, in the order received, and for no other update; the
updates received are the updates sent on the channel, in order, but for
those the case body has not taken yet. Each run is `/bin/sh -c` with the
account's command and the environment extended by `IMAPIDOL_ACCOUNT`,
`IMAPIDOL_EMAIL`, `IMAPIDOL_FOLDER` and `IMAPIDOL_SERVER` set to the
account's name, email, folder and server. When the updates received are a
mailbox update followed by an update of another type, the command has been
run exactly once. -/
theorem notifier_once_per_mailbox_update (environ : List String)
    (account : IMAPIDOLAccount) (acts : List Action) (st : Session)
    (hrun : run environ account Session.init acts = some st) :
    st.notified
      = (st.received.filter Update.isMailboxUpdate).map
          (fun u => (u, notifierCmd environ account)) ∧
    st.received ++ st.inFlight = offered acts ∧
    notifierCmd environ account
      = { Path := "/bin/sh", Args := ["/bin/sh", "-c", account.Command],
          Env := environ ++
            ["IMAPIDOL_ACCOUNT=" ++ account.Account, "IMAPIDOL_EMAIL=" ++ account.Email,
             "IMAPIDOL_FOLDER=" ++ account.Folder, "IMAPIDOL_SERVER=" ++ account.Server] } ∧
    (∀ m k p, st.received = [.MailboxUpdate m, .Other k p] →
      st.notified = [(.MailboxUpdate m, notifierCmd environ account)]) := by
  obtain ⟨h1, h2⟩ := run_invariants environ account acts Session.init st hrun rfl
  refine ⟨h1, by simpa [Session.init, Session.inFlight] using h2, rfl, ?_⟩
  intro m k p hrec
  rw [h1, notificationsFor, hrec]
  rfl

/-- Witness for C9: a mailbox update is sent and received, then the `select`
parks and is woken by an update of another type; the notification command
has been run once, for the mailbox update, with the account's environment. -/
theorem notifier_once_per_mailbox_update_witness :
    run ["HOME=/root"] exResolved Session.init
        [.offerUpdate (.MailboxUpdate "INBOX"), .selectUpdate runOk, .park,
         .offerUpdate (.Other "*client.StatusUpdate" "ok"), .selectUpdate runOk]
      = some
        { phase := .Watching, wait := .polling, shutdownClosed := false, pending := none,
          done := none,
          received := [.MailboxUpdate "INBOX", .Other "*client.StatusUpdate" "ok"],
          notified := [(.MailboxUpdate "INBOX",
            { Path := "/bin/sh", Args := ["/bin/sh", "-c", "notify-send mail"],
              Env := ["HOME=/root", "IMAPIDOL_ACCOUNT=work", "IMAPIDOL_EMAIL=w@example.com",
                      "IMAPIDOL_FOLDER=INBOX", "IMAPIDOL_SERVER=mail.example.com:993"] })] } ∧
    ([(Update.MailboxUpdate "INBOX",
        ({ Path := "/bin/sh", Args := ["/bin/sh", "-c", "notify-send mail"],
           Env := ["HOME=/root", "IMAPIDOL_ACCOUNT=work", "IMAPIDOL_EMAIL=w@example.com",
                   "IMAPIDOL_FOLDER=INBOX", "IMAPIDOL_SERVER=mail.example.com:993"] } : Cmd))]
      = ([Update.MailboxUpdate "INBOX", .Other "*client.StatusUpdate" "ok"].filter
          Update.isMailboxUpdate).map (fun u => (u, notifierCmd ["HOME=/root"] exResolved))) :=
  ⟨by decide,
   (notifier_once_per_mailbox_update ["HOME=/root"] exResolved
      [.offerUpdate (.MailboxUpdate "INBOX"), .selectUpdate runOk, .park,
       .offerUpdate (.Other "*client.StatusUpdate" "ok"), .selectUpdate runOk]
      { phase := .Watching, wait := .polling, shutdownClosed := false, pending := none,
        done := none,
        received := [.MailboxUpdate "INBOX", .Other "*client.StatusUpdate" "ok"],
        notified := [(.MailboxUpdate "INBOX",
          { Path := "/bin/sh", Args := ["/bin/sh", "-c", "notify-send mail"],
            Env := ["HOME=/root", "IMAPIDOL_ACCOUNT=work", "IMAPIDOL_EMAIL=w@example.com",
                    "IMAPIDOL_FOLDER=INBOX", "IMAPIDOL_SERVER=mail.example.com:993"] })] }
      (by decide)).1⟩

/-- When `shutdownCh` is closed before the `select` has parked (the loop is
entered, or comes back from a notification), an update sent afterwards is
ready together with the shutdown case, and the `select` may take it. -/
theorem select_before_parking_may_take_update :
    (run [] exResolved Session.init
        [.closeShutdown, .offerUpdate (.MailboxUpdate "INBOX"), .selectUpdate runOk]).map
      (fun st => (st.phase, st.notified.length)) = some (.Watching, 1) := by
  decide

/-- C10. Take the session parked in the `select` (the wait point of the
loop) and let `shutdownCh` be closed then. In every run that follows,
whatever is sent on `updates` and `done` afterwards, the notification command
is not run and no update is received; the session is Terminated, or it is
woken for the shutdown case, which it can take and which makes the loop
return; the shutdown case is the only thing the session can do, so that every
run in which it does something ends Terminated. -/
theorem shutdown_law (environ : List String) (account : IMAPIDOLAccount) (st : Session)
    (hw : st.phase = .Watching) (hp : st.wait = .parked)
    (acts : List Action) (st' : Session)
    (hrun : run environ account st (.closeShutdown :: acts) = some st') :
    st'.notified = st.notified ∧ st'.received = st.received ∧
    (st'.phase = .Terminated ∨
      (st'.phase = .Watching ∧
        ∃ st'', step environ account st' .selectShutdown = some st'' ∧
          st''.phase = .Terminated)) ∧
    (∀ a st'', a.isSelect = true → step environ account st' a = some st'' →
      a = .selectShutdown ∧ st''.phase = .Terminated) ∧
    ((∃ a ∈ acts, a.isSelect = true) → st'.phase = .Terminated) := by
  simp only [run] at hrun
  cases hs : step environ account st .closeShutdown with
  | none => rw [hs] at hrun; cases hrun
  | some st1 =>
    rw [hs] at hrun
    obtain ⟨k1, _, n1, r1⟩ := step_closeShutdown_parked environ account st st1 hw hp hs
    obtain ⟨k2, n2, r2, _, s2⟩ := run_committed environ account acts st1 st' hrun k1
    refine ⟨n2.trans n1, r2.trans r1, ?_, ?_, s2⟩
    · rcases k2.2.2 with hwatch | hterm
      · right
        refine ⟨hwatch, { st' with phase := .Terminated }, ?_, rfl⟩
        simp only [step]
        rw [if_pos ⟨hwatch, Or.inr k2.1⟩]
      · exact Or.inl hterm
    · intro a st'' hsel hstep
      obtain ⟨_, _, _, s3, _⟩ := step_committed environ account st' st'' a hstep k2
      exact ⟨(s3 hsel).1, (s3 hsel).2.2⟩

/-- Witness for C10: the session parks; `shutdownCh` is closed; a mailbox
update is sent and waits; the `select` takes the shutdown case; another
goroutine sends on `done`. The session is Terminated and the notification
command has not been run. Taking the update case after the close is not
possible. -/
theorem shutdown_law_witness :
    run [] exResolved Session.init [.park] = some exParked ∧
    (∃ st', run [] exResolved exParked
        [.closeShutdown, .offerUpdate (.MailboxUpdate "INBOX"), .selectShutdown,
         .idleReturns none] = some st' ∧
      st'.phase = .Terminated ∧ st'.notified = [] ∧ st'.received = []) ∧
    run [] exResolved exParked
      [.closeShutdown, .offerUpdate (.MailboxUpdate "INBOX"), .selectUpdate runOk] = none :=
  ⟨by decide,
   ⟨{ phase := .Terminated, wait := .woken .shutdown, shutdownClosed := true,
      pending := some (.MailboxUpdate "INBOX"), done := some none, received := [],
      notified := [] }, by decide,
    (shutdown_law [] exResolved exParked rfl rfl
      [.offerUpdate (.MailboxUpdate "INBOX"), .selectShutdown, .idleReturns none] _
      (by decide)).2.2.2.2 ⟨.selectShutdown, by decide, rfl⟩,
    (shutdown_law [] exResolved exParked rfl rfl
      [.offerUpdate (.MailboxUpdate "INBOX"), .selectShutdown, .idleReturns none] _
      (by decide)).1,
    (shutdown_law [] exResolved exParked rfl rfl
      [.offerUpdate (.MailboxUpdate "INBOX"), .selectShutdown, .idleReturns none] _
      (by decide)).2.1⟩,
   by decide⟩

end Imapidol
